import Mathlib

/-!
Shallow embedding of the vision-pdf-to-epub backend (Python sources under
app/) and proofs about the claims of its specification.

Conventions used throughout:
* Python dicts (which preserve insertion order) are modelled as association
  lists over their key type, with `lookupKey` and `alistSet` mirroring
  `d.get(k)` and `d[k] = v`.
* An `asyncio.Queue` sink is modelled by the list of items put into it, in
  order; `none` models the Python `None` end-of-stream marker.
* Wall-clock timestamps are `Int` seconds supplied as explicit parameters.
* Exceptions are modelled as values (`Except`); an exception's `str()` is a
  `String`.
-/

/-! ### Embedding of app/events/sse.py -/

/-- The `SSEEvent` dataclass from app/events/sse.py.  The JSON payload
`data` is kept abstract as a string (no claim inspects payload contents). -/
structure SSEEvent where
  id : Nat
  event : String
  data : String
deriving DecidableEq

/-- A subscriber queue: the items `put_nowait` into it, in order.  `none`
models the `None` end-of-stream marker. -/
abbrev Sink := List (Option SSEEvent)

/-- The mutable state of the `EventEmitter` class from app/events/sse.py. -/
structure EventEmitter where
  bufferSize : Nat
  buffer : List SSEEvent
  counter : Nat
  subscribers : List Sink
  closed : Bool
deriving DecidableEq

/-- `EventEmitter.__init__`. -/
def EventEmitter.new (bufferSize : Nat) : EventEmitter :=
  { bufferSize := bufferSize
    buffer := []
    counter := 0
    subscribers := []
    closed := false }

/-- Appending to a bounded `collections.deque` of capacity `maxlen`:
append, then evict from the front anything beyond capacity. -/
def ringAppend (maxlen : Nat) (buf : List SSEEvent) (ev : SSEEvent) : List SSEEvent :=
  let b := buf ++ [ev]
  if maxlen < b.length then b.drop (b.length - maxlen) else b

/-- `EventEmitter.emit` (app/events/sse.py lines 33-40): increment the
counter, build the event, append it to the ring buffer, push it onto every
current subscriber queue, and return the event.  Note that the source does
not consult `self._closed` here. -/
def EventEmitter.emit (e : EventEmitter) (event : String) (data : String) :
    EventEmitter × SSEEvent :=
  let counter := e.counter + 1
  let ev : SSEEvent := { id := counter, event := event, data := data }
  ({ e with
      counter := counter
      buffer := ringAppend e.bufferSize e.buffer ev
      subscribers := e.subscribers.map (fun q => q ++ [some ev]) },
   ev)

/-- Result of `EventEmitter.subscribe`: the updated emitter and the contents
delivered into the fresh queue at subscription time. -/
structure SubscribeResult where
  emitter : EventEmitter
  sink : Sink
deriving DecidableEq

/-- The replay computed by `EventEmitter.subscribe` when `last_event_id` is
provided: the buffered events with id strictly greater, in buffer order. -/
def EventEmitter.replayFor (e : EventEmitter) (lastEventId : Option Nat) :
    List SSEEvent :=
  match lastEventId with
  | none => []
  | some l => e.buffer.filter (fun ev => decide (l < ev.id))

/-- `EventEmitter.subscribe` (app/events/sse.py lines 42-58): create a fresh
queue; if `last_event_id` was given, replay newer buffered events into it;
if the emitter is closed put the `None` marker, otherwise add the queue to
the live subscriber list. -/
def EventEmitter.subscribe (e : EventEmitter) (lastEventId : Option Nat) :
    SubscribeResult :=
  let q : Sink := (e.replayFor lastEventId).map some
  if e.closed then
    { emitter := e, sink := q ++ [none] }
  else
    { emitter := { e with subscribers := e.subscribers ++ [q] }, sink := q }

/-- `EventEmitter.unsubscribe`: remove the first matching queue, ignoring a
missing one (the `except ValueError: pass`). -/
def EventEmitter.unsubscribe (e : EventEmitter) (q : Sink) : EventEmitter :=
  { e with subscribers := e.subscribers.erase q }

/-- `EventEmitter.close` (app/events/sse.py lines 67-72): set the closed
flag and clear the subscriber list.  (Each cleared queue receives a final
`None` marker; the queues are no longer reachable from the emitter state
afterwards, so the model drops them.) -/
def EventEmitter.close (e : EventEmitter) : EventEmitter :=
  { e with closed := true, subscribers := [] }

/-- `EventEmitter.snapshot`: the current ring-buffer contents in order. -/
def EventEmitter.snapshot (e : EventEmitter) : List SSEEvent :=
  e.buffer

/-- Emitter states reachable through the public operations, starting from a
freshly constructed emitter. -/
inductive EmitterReachable : EventEmitter → Prop
  | new (bufferSize : Nat) : EmitterReachable (EventEmitter.new bufferSize)
  | emit {e : EventEmitter} (event data : String) :
      EmitterReachable e → EmitterReachable (e.emit event data).1
  | subscribe {e : EventEmitter} (l : Option Nat) :
      EmitterReachable e → EmitterReachable (e.subscribe l).emitter
  | unsubscribe {e : EventEmitter} (q : Sink) :
      EmitterReachable e → EmitterReachable (e.unsubscribe q)
  | close {e : EventEmitter} :
      EmitterReachable e → EmitterReachable e.close

/-- Once an emitter is closed, its live subscriber set is empty: `close`
clears it, and no operation re-populates it while the closed flag is set. -/
theorem closed_subscribers_empty {e : EventEmitter}
    (hr : EmitterReachable e) (hc : e.closed = true) : e.subscribers = [] := by
  induction hr with
  | new bufferSize => simp [EventEmitter.new] at hc
  | emit event data _ ih =>
      simp only [EventEmitter.emit] at hc ⊢
      rw [ih hc]
      rfl
  | subscribe l _ ih =>
      rename_i e0 hre0
      by_cases h : e0.closed = true
      case pos =>
        simp only [EventEmitter.subscribe, h, if_pos] at hc ⊢
        exact ih h
      case neg =>
        simp only [EventEmitter.subscribe, if_neg h] at hc
        simp only [Bool.not_eq_true] at h
        exact absurd hc (by simp [h])
  | unsubscribe q _ ih =>
      simp only [EventEmitter.unsubscribe] at hc ⊢
      rw [ih hc]
      rfl
  | close _ _ => rfl

/-- The `EventRegistry` from app/events/sse.py: a process-wide insertion
ordered mapping from job id to emitter state. -/
abbrev EventRegistry := List (String × EventEmitter)

/-- Ordered-dict lookup. -/
def lookupKey {κ α : Type} [DecidableEq κ] (l : List (κ × α)) (k : κ) : Option α :=
  match l with
  | [] => none
  | kv :: rest => if kv.1 = k then some kv.2 else lookupKey rest k

/-- Ordered-dict assignment: update the existing entry in place, else append. -/
def alistSet {κ α : Type} [DecidableEq κ] (l : List (κ × α)) (k : κ) (v : α) :
    List (κ × α) :=
  if l.any (fun kv => kv.1 = k) then
    l.map (fun kv => if kv.1 = k then (k, v) else kv)
  else
    l ++ [(k, v)]

/-- `EventRegistry.get_or_create` (app/events/sse.py lines 85-88). -/
def EventRegistry.getOrCreate (r : EventRegistry) (jobId : String)
    (bufferSize : Nat) : EventRegistry × EventEmitter :=
  match lookupKey r jobId with
  | some e => (r, e)
  | none =>
      let e := EventEmitter.new bufferSize
      (r ++ [(jobId, e)], e)

/-- `EventRegistry.remove` (app/events/sse.py lines 93-96): pop the entry
and close the popped emitter.  The second component is the popped emitter in
its closed state (what its remaining subscribers observe), if there was one. -/
def EventRegistry.remove (r : EventRegistry) (jobId : String) :
    EventRegistry × Option EventEmitter :=
  match lookupKey r jobId with
  | none => (r, none)
  | some e => (r.filter (fun kv => ¬ kv.1 = jobId), some e.close)

/-- A sequence of `emit` calls, returning the final emitter state. -/
def EventEmitter.emitMany (e : EventEmitter) (evs : List (String × String)) :
    EventEmitter :=
  match evs with
  | [] => e
  | nd :: rest => ((e.emit nd.1 nd.2).1).emitMany rest

theorem emitMany_preserves_closed_no_subscribers (evs : List (String × String)) :
    ∀ e : EventEmitter, e.closed = true → e.subscribers = [] →
      (e.emitMany evs).closed = true ∧ (e.emitMany evs).subscribers = [] := by
  induction evs with
  | nil => exact fun e hc hs => ⟨hc, hs⟩
  | cons nd rest ih =>
      intro e hc hs
      have h1 : (e.emit nd.1 nd.2).1.closed = true := hc
      have h2 : (e.emit nd.1 nd.2).1.subscribers = [] := by
        simp only [EventEmitter.emit, hs]
        rfl
      exact ih _ h1 h2

/-- A closed emitter that already saw one event, used as the concrete input
for claim C1. -/
def c1Pre : EventEmitter :=
  (((EventEmitter.new 200).emit "job.started" "").1).close

/-- The same emitter after one more `emit` call. -/
def c1Post : EventEmitter :=
  (c1Pre.emit "page.completed" "").1

/-- Claim C1, counterexample.  The claim states that after `close()` a call
to `emit` leaves the counter unchanged and appends nothing to the ring
buffer.  On the concrete closed emitter `c1Pre` (one prior event, counter 1,
one buffered event), calling `emit` advances the counter from 1 to 2 and
grows the buffer from 1 to 2 events: `EventEmitter.emit` never consults the
closed flag. -/
theorem c1_counterexample :
    c1Pre.closed = true ∧
    c1Pre.counter = 1 ∧ c1Post.counter = 2 ∧
    c1Pre.buffer.length = 1 ∧ c1Post.buffer.length = 2 := by
  refine ⟨rfl, rfl, rfl, rfl, rfl⟩

/-- Claim C1, amended: after `close()` has been called, a subsequent
`emit(event_name, payload)` is still admitted: it advances the counter and
appends the event to the ring buffer; however no subscriber receives it,
because `close` cleared the live subscriber set and no subscriber is ever
added to a closed emitter. -/
theorem c1_emit_after_close (e : EventEmitter) (hr : EmitterReachable e)
    (hc : e.closed = true) (event data : String) :
    (e.emit event data).1.counter = e.counter + 1 ∧
    (e.emit event data).1.buffer =
      ringAppend e.bufferSize e.buffer
        { id := e.counter + 1, event := event, data := data } ∧
    (e.emit event data).1.subscribers = [] ∧
    (e.emit event data).1.closed = true := by
  refine ⟨rfl, rfl, ?_, hc⟩
  have hs := closed_subscribers_empty hr hc
  simp only [EventEmitter.emit, hs]
  rfl

/-- Witness for the amended claim C1, at the concrete closed emitter
`c1Pre`. -/
theorem c1_emit_after_close_witness :
    c1Post.counter = c1Pre.counter + 1 ∧
    c1Post.buffer =
      ringAppend c1Pre.bufferSize c1Pre.buffer
        { id := c1Pre.counter + 1, event := "page.completed", data := "" } ∧
    c1Post.subscribers = [] ∧
    c1Post.closed = true :=
  c1_emit_after_close c1Pre
    (EmitterReachable.close
      (EmitterReachable.emit "job.started" "" (EmitterReachable.new 200)))
    rfl "page.completed" ""

/-- Claim C5: on `subscribe(last_event_id = L)` the fresh sink receives
exactly the buffered events with id strictly greater than L, in buffer
order; when the emitter is already closed the sink additionally receives a
single end-of-stream marker after the replay, and the emitter state is
unchanged (in particular the sink is not added to the live subscriber
set). -/
theorem c5_subscribe_replay (e : EventEmitter) (L : Nat) :
    ((e.subscribe (some L)).sink =
      (e.buffer.filter (fun ev => decide (L < ev.id))).map some ++
        (if e.closed then [none] else [])) ∧
    (∀ ev : SSEEvent,
      some ev ∈ (e.subscribe (some L)).sink ↔ ev ∈ e.buffer ∧ L < ev.id) ∧
    (e.closed = true → (e.subscribe (some L)).emitter = e) := by
  refine ⟨?_, ?_, ?_⟩
  · by_cases hc : e.closed = true
    · simp [EventEmitter.subscribe, EventEmitter.replayFor, hc]
    · simp only [Bool.not_eq_true] at hc
      simp [EventEmitter.subscribe, EventEmitter.replayFor, hc]
  · intro ev
    by_cases hc : e.closed = true
    · simp [EventEmitter.subscribe, EventEmitter.replayFor, hc,
        List.mem_filter, and_comm]
    · simp only [Bool.not_eq_true] at hc
      simp [EventEmitter.subscribe, EventEmitter.replayFor, hc,
        List.mem_filter, and_comm]
  · intro hc
    simp [EventEmitter.subscribe, hc]

/-- A concrete closed emitter with three past events and ring capacity 2
(so only events 2 and 3 are still buffered), for the claim C5 witness. -/
def c5Emitter : EventEmitter :=
  (((((EventEmitter.new 2).emit "a" "").1).emit "b" "").1.emit "c" "").1.close

/-- Witness for claim C5 at `c5Emitter` with last event id 1: the buffered
events with id greater than 1 are replayed in order, followed by the
end-of-stream marker, and the emitter is left unchanged. -/
theorem c5_subscribe_replay_witness :
    (c5Emitter.subscribe (some 1)).emitter = c5Emitter ∧
    (c5Emitter.subscribe (some 1)).sink =
      [some { id := 2, event := "b", data := "" },
       some { id := 3, event := "c", data := "" }, none] := by
  refine ⟨(c5_subscribe_replay c5Emitter 1).2.2 rfl, ?_⟩
  rw [(c5_subscribe_replay c5Emitter 1).1]
  rfl

/-- Claim C9: once a job's first pipeline run has closed its emitter,
`get_or_create` during a retry returns the very same closed emitter; a
subscriber connecting then receives the buffered replay followed
immediately by the end-of-stream marker and is not added to the live
fan-out set; and every event emitted by the retry run is delivered to no
live subscriber (the subscriber set stays empty along the whole run). -/
theorem c9_retry_events_never_live (r : EventRegistry) (jobId : String)
    (b : Nat) (e : EventEmitter) (hr : lookupKey r jobId = some e)
    (hre : EmitterReachable e) (hc : e.closed = true)
    (l : Option Nat) (evs : List (String × String)) :
    (r.getOrCreate jobId b).2 = e ∧
    (r.getOrCreate jobId b).1 = r ∧
    (e.subscribe l).sink = (e.replayFor l).map some ++ [none] ∧
    (e.subscribe l).emitter = e ∧
    (∀ pre suf, evs = pre ++ suf → (e.emitMany pre).subscribers = []) := by
  have hs := closed_subscribers_empty hre hc
  refine ⟨?_, ?_, ?_, ?_, ?_⟩
  · simp [EventRegistry.getOrCreate, hr]
  · simp [EventRegistry.getOrCreate, hr]
  · simp [EventEmitter.subscribe, hc]
  · simp [EventEmitter.subscribe, hc]
  · intro pre suf _
    exact (emitMany_preserves_closed_no_subscribers pre e hc hs).2

/-- A concrete closed emitter as left behind by a finished first run. -/
def c9Emitter : EventEmitter :=
  (((EventEmitter.new 3).emit "job.completed" "").1).close

/-- A concrete event registry holding the finished job's emitter. -/
def c9Registry : EventRegistry := [("job1", c9Emitter)]

/-- Witness for claim C9 at a concrete registry: the retry obtains the same
closed emitter, a reconnecting subscriber gets replay plus end-of-stream,
and after the retry emits two further events the live set is still empty. -/
theorem c9_retry_events_never_live_witness :
    (c9Registry.getOrCreate "job1" 3).2 = c9Emitter ∧
    (c9Emitter.subscribe (some 0)).sink =
      [some { id := 1, event := "job.completed", data := "" }, none] ∧
    (c9Emitter.emitMany
      [("job.started", ""), ("page.completed", "")]).subscribers = [] := by
  have h := c9_retry_events_never_live c9Registry "job1" 3 c9Emitter rfl
    (EmitterReachable.close
      (EmitterReachable.emit "job.completed" "" (EmitterReachable.new 3)))
    rfl (some 0) [("job.started", ""), ("page.completed", "")]
  refine ⟨h.1, ?_, h.2.2.2.2 [("job.started", ""), ("page.completed", "")] [] rfl⟩
  rw [h.2.2.1]
  rfl

/-! ### Embedding of app/models.py -/

/-- `JobStatus` from app/models.py. -/
inductive JobStatus where
  | pending
  | processing
  | assembling
  | completed
  | failed
deriving DecidableEq

/-- `PageStatus` from app/models.py. -/
inductive PageStatus where
  | pending
  | processing
  | success
  | failed
deriving DecidableEq

/-- `PageResult` from app/models.py. -/
structure PageResult where
  page : Nat
  status : PageStatus
  text : String
  error : Option String
deriving DecidableEq

/-- The `Job` model from app/models.py.  Timestamps are `Int` seconds;
`pages` is an insertion-ordered mapping from 0-based page index to
`PageResult`. -/
structure Job where
  id : String
  status : JobStatus
  totalPages : Nat
  pages : List (Nat × PageResult)
  language : String
  ocrPrompt : Option String
  renderDpi : Option Nat
  jpegQuality : Option Nat
  createdAt : Int
  startedAt : Option Int
  completedAt : Option Int
  error : Option String
  pdfFilename : String
deriving DecidableEq

/-- Derived property `Job.pages_succeeded`. -/
def Job.pagesSucceeded (j : Job) : Nat :=
  (j.pages.filter (fun kv => kv.2.status = PageStatus.success)).length

/-- Derived property `Job.pages_failed`. -/
def Job.pagesFailed (j : Job) : Nat :=
  (j.pages.filter (fun kv => kv.2.status = PageStatus.failed)).length

/-- Derived property `Job.failed_page_numbers` (sorted ascending). -/
def Job.failedPageNumbers (j : Job) : List Nat :=
  ((j.pages.filter (fun kv => kv.2.status = PageStatus.failed)).map
    (fun kv => kv.2.page)).mergeSort (fun a b => a ≤ b)

/-! ### Embedding of app/jobs/cleanup.py -/

/-- The part of the world state touched by one cleanup sweep: the job
registry records, which job directories and input PDFs exist on disk, and
the emitter registry.  `closedEmitters` records the closed state of every
emitter popped by the sweep (what its remaining subscribers observe). -/
structure CleanupWorld where
  jobs : List Job
  dirs : List String
  pdfs : List String
  emitters : EventRegistry
  closedEmitters : List EventEmitter
deriving DecidableEq

/-- The first branch guard in `_cleanup` (app/jobs/cleanup.py line 36):
terminal status and age strictly above the job TTL. -/
def jobExpired (now jobTtl : Int) (j : Job) : Prop :=
  (j.status = JobStatus.completed ∨ j.status = JobStatus.failed) ∧
    jobTtl < now - j.createdAt

instance (now jobTtl : Int) (j : Job) : Decidable (jobExpired now jobTtl j) := by
  unfold jobExpired
  infer_instance

/-- The second branch guard in `_cleanup` (line 46): age strictly above the
PDF TTL. -/
def pdfExpired (now pdfTtl : Int) (j : Job) : Prop :=
  pdfTtl < now - j.createdAt

instance (now pdfTtl : Int) (j : Job) : Decidable (pdfExpired now pdfTtl j) := by
  unfold pdfExpired
  infer_instance

/-- One iteration of the `_cleanup` loop body (app/jobs/cleanup.py lines
33-50) for a single job from the registry snapshot. -/
def cleanupStep (now jobTtl pdfTtl : Int) (w : CleanupWorld) (job : Job) :
    CleanupWorld :=
  if jobExpired now jobTtl job then
    let rm := EventRegistry.remove w.emitters job.id
    { jobs := w.jobs.filter (fun j => ¬ j.id = job.id)
      dirs := w.dirs.filter (fun d => ¬ d = job.id)
      pdfs := w.pdfs.filter (fun d => ¬ d = job.id)
      emitters := rm.1
      closedEmitters := w.closedEmitters ++ rm.2.toList }
  else if pdfExpired now pdfTtl job then
    { w with pdfs := w.pdfs.filter (fun d => ¬ d = job.id) }
  else
    w

/-- The `_cleanup` loop over a snapshot `js` of the registry. -/
def cleanupFold (now jobTtl pdfTtl : Int) (js : List Job) (w : CleanupWorld) :
    CleanupWorld :=
  js.foldl (cleanupStep now jobTtl pdfTtl) w

/-- `_cleanup` (app/jobs/cleanup.py lines 28-51): the TTLs are the
configured hour counts times 3600, and the loop runs over a snapshot of
`job_registry.all_jobs()`. -/
def cleanup (now jobTtlHours pdfTtlHours : Int) (w : CleanupWorld) :
    CleanupWorld :=
  cleanupFold now (jobTtlHours * 3600) (pdfTtlHours * 3600) w.jobs w

theorem cleanupStep_dirs (now jobTtl pdfTtl : Int) (w : CleanupWorld) (job : Job) :
    (cleanupStep now jobTtl pdfTtl w job).dirs =
      if jobExpired now jobTtl job then
        w.dirs.filter (fun d => ¬ d = job.id)
      else w.dirs := by
  by_cases h : jobExpired now jobTtl job
  · simp [cleanupStep, h]
  · by_cases h2 : pdfExpired now pdfTtl job <;> simp [cleanupStep, h, h2]

theorem cleanupStep_jobs (now jobTtl pdfTtl : Int) (w : CleanupWorld) (job : Job) :
    (cleanupStep now jobTtl pdfTtl w job).jobs =
      if jobExpired now jobTtl job then
        w.jobs.filter (fun j => ¬ j.id = job.id)
      else w.jobs := by
  by_cases h : jobExpired now jobTtl job
  · simp [cleanupStep, h]
  · by_cases h2 : pdfExpired now pdfTtl job <;> simp [cleanupStep, h, h2]

theorem cleanupStep_pdfs (now jobTtl pdfTtl : Int) (w : CleanupWorld) (job : Job) :
    (cleanupStep now jobTtl pdfTtl w job).pdfs =
      if jobExpired now jobTtl job ∨ pdfExpired now pdfTtl job then
        w.pdfs.filter (fun d => ¬ d = job.id)
      else w.pdfs := by
  by_cases h : jobExpired now jobTtl job
  · simp [cleanupStep, h]
  · by_cases h2 : pdfExpired now pdfTtl job <;> simp [cleanupStep, h, h2]

theorem cleanupStep_emitters (now jobTtl pdfTtl : Int) (w : CleanupWorld) (job : Job) :
    (cleanupStep now jobTtl pdfTtl w job).emitters =
      if jobExpired now jobTtl job then
        (EventRegistry.remove w.emitters job.id).1
      else w.emitters := by
  by_cases h : jobExpired now jobTtl job
  · simp [cleanupStep, h]
  · by_cases h2 : pdfExpired now pdfTtl job <;> simp [cleanupStep, h, h2]

theorem cleanupStep_closedEmitters (now jobTtl pdfTtl : Int) (w : CleanupWorld)
    (job : Job) :
    (cleanupStep now jobTtl pdfTtl w job).closedEmitters =
      if jobExpired now jobTtl job then
        w.closedEmitters ++ (EventRegistry.remove w.emitters job.id).2.toList
      else w.closedEmitters := by
  by_cases h : jobExpired now jobTtl job
  · simp [cleanupStep, h]
  · by_cases h2 : pdfExpired now pdfTtl job <;> simp [cleanupStep, h, h2]

theorem lookupKey_filter_ne {κ α : Type} [DecidableEq κ]
    (l : List (κ × α)) (k i : κ) :
    lookupKey (l.filter (fun kv => ¬ kv.1 = k)) i =
      if i = k then none else lookupKey l i := by
  induction l with
  | nil => by_cases h : i = k <;> simp [lookupKey, h]
  | cons kv rest ih =>
      simp only [decide_not] at ih
      by_cases hk : kv.1 = k
      · by_cases hik : i = k
        · subst hik
          simp [List.filter_cons, hk, ih, lookupKey]
        · have hne : ¬ kv.1 = i := fun h => hik (h ▸ hk)
          have hne2 : ¬ k = i := fun h => hik h.symm
          simp [List.filter_cons, hk, hik, ih, lookupKey, hne, hne2]
      · by_cases hvi : kv.1 = i
        · have hik : ¬ i = k := fun h => hk (hvi.trans h)
          simp [List.filter_cons, hk, hik, ih, lookupKey, hvi]
        · simp [List.filter_cons, hk, hvi, ih, lookupKey]

theorem lookupKey_remove (r : EventRegistry) (k i : String) :
    lookupKey (EventRegistry.remove r k).1 i =
      if i = k then none else lookupKey r i := by
  unfold EventRegistry.remove
  cases hr : lookupKey r k with
  | none =>
      by_cases h : i = k
      · subst h; simp [hr]
      · simp [h]
  | some e => simpa using lookupKey_filter_ne r k i

theorem remove_popped (r : EventRegistry) (k : String) :
    (EventRegistry.remove r k).2 = (lookupKey r k).map EventEmitter.close := by
  unfold EventRegistry.remove
  cases lookupKey r k <;> simp

theorem cleanupFold_cons (now jobTtl pdfTtl : Int) (j : Job) (rest : List Job)
    (w : CleanupWorld) :
    cleanupFold now jobTtl pdfTtl (j :: rest) w =
      cleanupFold now jobTtl pdfTtl rest (cleanupStep now jobTtl pdfTtl w j) :=
  rfl

theorem cleanupFold_dirs (now jobTtl pdfTtl : Int) (js : List Job) :
    ∀ (w : CleanupWorld) (i : String),
      i ∈ (cleanupFold now jobTtl pdfTtl js w).dirs ↔
        i ∈ w.dirs ∧ ∀ j ∈ js, j.id = i → ¬ jobExpired now jobTtl j := by
  induction js with
  | nil => intro w i; simp [cleanupFold]
  | cons j rest ih =>
      intro w i
      rw [cleanupFold_cons, ih]
      by_cases h : jobExpired now jobTtl j
      · rw [cleanupStep_dirs, if_pos h]
        simp only [List.mem_filter, List.forall_mem_cons, decide_not,
          Bool.not_eq_true', decide_eq_false_iff_not]
        constructor
        · rintro ⟨⟨hd, hne⟩, hall⟩
          exact ⟨hd, fun hji => absurd (hji.symm) hne, hall⟩
        · rintro ⟨hd, hji, hall⟩
          exact ⟨⟨hd, fun hij => (hji hij.symm) h⟩, hall⟩
      · rw [cleanupStep_dirs, if_neg h]
        simp only [List.forall_mem_cons]
        constructor
        · rintro ⟨hd, hall⟩
          exact ⟨hd, fun _ => h, hall⟩
        · rintro ⟨hd, _, hall⟩
          exact ⟨hd, hall⟩

theorem cleanupFold_jobs (now jobTtl pdfTtl : Int) (js : List Job) :
    ∀ (w : CleanupWorld) (x : Job),
      x ∈ (cleanupFold now jobTtl pdfTtl js w).jobs ↔
        x ∈ w.jobs ∧ ∀ j ∈ js, j.id = x.id → ¬ jobExpired now jobTtl j := by
  induction js with
  | nil => intro w x; simp [cleanupFold]
  | cons j rest ih =>
      intro w x
      rw [cleanupFold_cons, ih]
      by_cases h : jobExpired now jobTtl j
      · rw [cleanupStep_jobs, if_pos h]
        simp only [List.mem_filter, List.forall_mem_cons, decide_not,
          Bool.not_eq_true', decide_eq_false_iff_not]
        constructor
        · rintro ⟨⟨hd, hne⟩, hall⟩
          exact ⟨hd, fun hji => absurd (hji.symm) hne, hall⟩
        · rintro ⟨hd, hji, hall⟩
          exact ⟨⟨hd, fun hij => (hji hij.symm) h⟩, hall⟩
      · rw [cleanupStep_jobs, if_neg h]
        simp only [List.forall_mem_cons]
        constructor
        · rintro ⟨hd, hall⟩
          exact ⟨hd, fun _ => h, hall⟩
        · rintro ⟨hd, _, hall⟩
          exact ⟨hd, hall⟩

theorem cleanupFold_pdfs (now jobTtl pdfTtl : Int) (js : List Job) :
    ∀ (w : CleanupWorld) (i : String),
      i ∈ (cleanupFold now jobTtl pdfTtl js w).pdfs ↔
        i ∈ w.pdfs ∧ ∀ j ∈ js, j.id = i →
          ¬ jobExpired now jobTtl j ∧ ¬ pdfExpired now pdfTtl j := by
  induction js with
  | nil => intro w i; simp [cleanupFold]
  | cons j rest ih =>
      intro w i
      rw [cleanupFold_cons, ih]
      by_cases h : jobExpired now jobTtl j ∨ pdfExpired now pdfTtl j
      · rw [cleanupStep_pdfs, if_pos h]
        simp only [List.mem_filter, List.forall_mem_cons, decide_not,
          Bool.not_eq_true', decide_eq_false_iff_not]
        constructor
        · rintro ⟨⟨hd, hne⟩, hall⟩
          exact ⟨hd, fun hji => absurd (hji.symm) hne, hall⟩
        · rintro ⟨hd, hji, hall⟩
          refine ⟨⟨hd, fun hij => ?_⟩, hall⟩
          rcases h with h | h
          · exact ((hji hij.symm).1) h
          · exact ((hji hij.symm).2) h
      · rw [cleanupStep_pdfs, if_neg h]
        push_neg at h
        simp only [List.forall_mem_cons]
        constructor
        · rintro ⟨hd, hall⟩
          exact ⟨hd, fun _ => h, hall⟩
        · rintro ⟨hd, _, hall⟩
          exact ⟨hd, hall⟩

theorem cleanupFold_emitters (now jobTtl pdfTtl : Int) (js : List Job) :
    ∀ (w : CleanupWorld) (i : String),
      lookupKey (cleanupFold now jobTtl pdfTtl js w).emitters i =
        if ∃ j ∈ js, j.id = i ∧ jobExpired now jobTtl j then none
        else lookupKey w.emitters i := by
  induction js with
  | nil => intro w i; simp [cleanupFold]
  | cons j rest ih =>
      intro w i
      rw [cleanupFold_cons, ih, cleanupStep_emitters]
      by_cases h : jobExpired now jobTtl j
      · rw [if_pos h, lookupKey_remove]
        by_cases hij : i = j.id
        · have hcond : ∃ j2 ∈ j :: rest, j2.id = i ∧ jobExpired now jobTtl j2 :=
            ⟨j, List.mem_cons_self j rest, hij.symm, h⟩
          rw [if_pos hij, if_pos hcond, ite_self]
        · rw [if_neg hij]
          by_cases hrest : ∃ j2 ∈ rest, j2.id = i ∧ jobExpired now jobTtl j2
          · have hcond : ∃ j2 ∈ j :: rest, j2.id = i ∧ jobExpired now jobTtl j2 := by
              rcases hrest with ⟨j2, hm, hji, hex⟩
              exact ⟨j2, List.mem_cons_of_mem j hm, hji, hex⟩
            rw [if_pos hrest, if_pos hcond]
          · have hcond : ¬ ∃ j2 ∈ j :: rest, j2.id = i ∧ jobExpired now jobTtl j2 := by
              rintro ⟨j2, hm, hji, hex⟩
              rcases List.mem_cons.mp hm with rfl | hm2
              · exact hij hji.symm
              · exact hrest ⟨j2, hm2, hji, hex⟩
            rw [if_neg hrest, if_neg hcond]
      · rw [if_neg h]
        by_cases hrest : ∃ j2 ∈ rest, j2.id = i ∧ jobExpired now jobTtl j2
        · have hcond : ∃ j2 ∈ j :: rest, j2.id = i ∧ jobExpired now jobTtl j2 := by
            rcases hrest with ⟨j2, hm, hji, hex⟩
            exact ⟨j2, List.mem_cons_of_mem j hm, hji, hex⟩
          rw [if_pos hrest, if_pos hcond]
        · have hcond : ¬ ∃ j2 ∈ j :: rest, j2.id = i ∧ jobExpired now jobTtl j2 := by
            rintro ⟨j2, hm, hji, hex⟩
            rcases List.mem_cons.mp hm with rfl | hm2
            · exact h hex
            · exact hrest ⟨j2, hm2, hji, hex⟩
          rw [if_neg hrest, if_neg hcond]

theorem cleanupFold_closed_mono (now jobTtl pdfTtl : Int) (js : List Job) :
    ∀ (w : CleanupWorld) (x : EventEmitter),
      x ∈ w.closedEmitters →
        x ∈ (cleanupFold now jobTtl pdfTtl js w).closedEmitters := by
  induction js with
  | nil => intro w x hx; exact hx
  | cons j rest ih =>
      intro w x hx
      rw [cleanupFold_cons]
      refine ih _ x ?_
      rw [cleanupStep_closedEmitters]
      by_cases h : jobExpired now jobTtl j
      · rw [if_pos h]; exact List.mem_append_left _ hx
      · rw [if_neg h]; exact hx

theorem cleanupFold_closed_mem (now jobTtl pdfTtl : Int) (js : List Job) :
    ∀ (w : CleanupWorld) (j : Job) (e : EventEmitter),
      (js.map Job.id).Nodup → j ∈ js → jobExpired now jobTtl j →
      lookupKey w.emitters j.id = some e →
        e.close ∈ (cleanupFold now jobTtl pdfTtl js w).closedEmitters := by
  induction js with
  | nil => intro w j e _ hj; exact absurd hj (List.not_mem_nil j)
  | cons j2 rest ih =>
      intro w j e hnd hj hex hlk
      have hnd2 : j2.id ∉ rest.map Job.id ∧ (rest.map Job.id).Nodup := by
        simpa [List.nodup_cons] using hnd
      rw [cleanupFold_cons]
      rcases List.mem_cons.mp hj with rfl | hjrest
      · refine cleanupFold_closed_mono now jobTtl pdfTtl rest _ _ ?_
        rw [cleanupStep_closedEmitters, if_pos hex, remove_popped, hlk]
        simp
      · have hne : ¬ j2.id = j.id := by
          intro hcontra
          exact hnd2.1 (hcontra ▸ List.mem_map_of_mem Job.id hjrest)
        refine ih _ j e hnd2.2 hjrest hex ?_
        rw [cleanupStep_emitters]
        by_cases h2 : jobExpired now jobTtl j2
        · rw [if_pos h2, lookupKey_remove, if_neg (fun hk => hne hk.symm)]
          exact hlk
        · rw [if_neg h2]; exact hlk

/-- Claim C7: in a cleanup sweep, a processing or assembling job is never
removed regardless of age (its registry entry, directory and emitter are
untouched; only its input PDF is deleted exactly when its age exceeds the
PDF TTL), while a completed or failed job older than the job TTL has its
directory removed, its registry entry deleted, and its emitter removed from
the emitter registry and thereby closed.  Registry ids are assumed unique
(the registry is a dict keyed by job id). -/
theorem c7_cleanup (now jobTtlHours pdfTtlHours : Int) (w : CleanupWorld)
    (hnd : (w.jobs.map Job.id).Nodup) (j : Job) (hj : j ∈ w.jobs) :
    ((j.status = JobStatus.processing ∨ j.status = JobStatus.assembling) →
      j ∈ (cleanup now jobTtlHours pdfTtlHours w).jobs ∧
      (j.id ∈ (cleanup now jobTtlHours pdfTtlHours w).dirs ↔ j.id ∈ w.dirs) ∧
      lookupKey (cleanup now jobTtlHours pdfTtlHours w).emitters j.id =
        lookupKey w.emitters j.id ∧
      (j.id ∈ (cleanup now jobTtlHours pdfTtlHours w).pdfs ↔
        j.id ∈ w.pdfs ∧ ¬ pdfExpired now (pdfTtlHours * 3600) j)) ∧
    ((j.status = JobStatus.completed ∨ j.status = JobStatus.failed) →
      jobTtlHours * 3600 < now - j.createdAt →
      (∀ j2 ∈ (cleanup now jobTtlHours pdfTtlHours w).jobs, ¬ j2.id = j.id) ∧
      j.id ∉ (cleanup now jobTtlHours pdfTtlHours w).dirs ∧
      lookupKey (cleanup now jobTtlHours pdfTtlHours w).emitters j.id = none ∧
      (∀ e, lookupKey w.emitters j.id = some e →
        e.close ∈ (cleanup now jobTtlHours pdfTtlHours w).closedEmitters ∧
        e.close.closed = true)) := by
  have hinj := List.inj_on_of_nodup_map hnd
  constructor
  · intro hstatus
    have hnotexp : ∀ j2 ∈ w.jobs, j2.id = j.id →
        ¬ jobExpired now (jobTtlHours * 3600) j2 := by
      intro j2 hm heq hexp
      have hj2 : j2 = j := hinj hm hj heq
      subst hj2
      rcases hexp.1 with hc | hc <;> rcases hstatus with hs | hs <;>
        rw [hs] at hc <;> exact absurd hc (by decide)
    refine ⟨?_, ?_, ?_, ?_⟩
    · rw [cleanup, cleanupFold_jobs]
      exact ⟨hj, hnotexp⟩
    · rw [cleanup, cleanupFold_dirs]
      exact ⟨fun h => h.1, fun h => ⟨h, hnotexp⟩⟩
    · rw [cleanup, cleanupFold_emitters, if_neg]
      rintro ⟨j2, hm, heq, hexp⟩
      exact hnotexp j2 hm heq hexp
    · rw [cleanup, cleanupFold_pdfs]
      constructor
      · rintro ⟨hp, hall⟩
        exact ⟨hp, (hall j hj rfl).2⟩
      · rintro ⟨hp, hnp⟩
        refine ⟨hp, fun j2 hm heq => ?_⟩
        have hj2 : j2 = j := hinj hm hj heq
        subst hj2
        exact ⟨hnotexp j2 hm rfl, hnp⟩
  · intro hstatus hage
    have hexp : jobExpired now (jobTtlHours * 3600) j := ⟨hstatus, hage⟩
    refine ⟨?_, ?_, ?_, ?_⟩
    · intro j2 hm heq
      rw [cleanup, cleanupFold_jobs] at hm
      exact hm.2 j hj heq.symm hexp
    · intro hmem
      rw [cleanup, cleanupFold_dirs] at hmem
      exact hmem.2 j hj rfl hexp
    · rw [cleanup, cleanupFold_emitters, if_pos ⟨j, hj, rfl, hexp⟩]
    · intro e hlk
      exact ⟨cleanupFold_closed_mem now (jobTtlHours * 3600)
        (pdfTtlHours * 3600) w.jobs w j e hnd hj hexp hlk, rfl⟩

/-- Concrete jobs and world for the claim C7 witness: job a is processing,
job b is completed; both were created at time 0 and the sweep runs at time
100000 with a 24 hour job TTL and a 1 hour PDF TTL. -/
def c7JobA : Job :=
  { id := "a", status := JobStatus.processing, totalPages := 1, pages := []
    language := "fa", ocrPrompt := none, renderDpi := none, jpegQuality := none
    createdAt := 0, startedAt := some 0, completedAt := none, error := none
    pdfFilename := "a.pdf" }

def c7JobB : Job :=
  { id := "b", status := JobStatus.completed, totalPages := 1, pages := []
    language := "fa", ocrPrompt := none, renderDpi := none, jpegQuality := none
    createdAt := 0, startedAt := some 0, completedAt := some 5, error := none
    pdfFilename := "b.pdf" }

def c7EmB : EventEmitter := ((EventEmitter.new 200).emit "job.completed" "").1

def c7World : CleanupWorld :=
  { jobs := [c7JobA, c7JobB]
    dirs := ["a", "b"]
    pdfs := ["a", "b"]
    emitters := [("a", EventEmitter.new 200), ("b", c7EmB)]
    closedEmitters := [] }

/-- Witness for claim C7 at `c7World`: the old processing job a keeps its
registry entry but loses its PDF, while the old completed job b loses its
directory, registry entry and emitter, the emitter ending up closed. -/
theorem c7_cleanup_witness :
    c7JobA ∈ (cleanup 100000 24 1 c7World).jobs ∧
    "a" ∉ (cleanup 100000 24 1 c7World).pdfs ∧
    "b" ∉ (cleanup 100000 24 1 c7World).dirs ∧
    lookupKey (cleanup 100000 24 1 c7World).emitters "b" = none ∧
    c7EmB.close ∈ (cleanup 100000 24 1 c7World).closedEmitters := by
  have hnd : (c7World.jobs.map Job.id).Nodup := by decide
  have hA := (c7_cleanup 100000 24 1 c7World hnd c7JobA
    (List.mem_cons_self _ _)).1 (Or.inl rfl)
  have hB := (c7_cleanup 100000 24 1 c7World hnd c7JobB
    (List.mem_cons_of_mem _ (List.mem_cons_self _ _))).2 (Or.inl rfl) (by decide)
  refine ⟨hA.1, ?_, hB.2.1, hB.2.2.1, (hB.2.2.2 c7EmB (by decide)).1⟩
  intro hmem
  have h2 := (hA.2.2.2).mp hmem
  exact h2.2 (by decide)

/-! ### Embedding of app/pipeline/assembler.py -/

/-- Python str whitespace (ASCII part), as used by str.strip(). -/
def isPySpace (c : Char) : Bool :=
  c = ' ' ∨ c = '\t' ∨ c = '\n' ∨ c = '\r' ∨ c = Char.ofNat 11 ∨ c = Char.ofNat 12

/-- Python str.strip(): drop whitespace from both ends. -/
def pyStrip (s : String) : String :=
  String.mk (((s.data.dropWhile isPySpace).reverse.dropWhile isPySpace).reverse)

/-- Python text.split with the two-newline separator used by the assembler:
leftmost non-overlapping splitting, keeping empty fields.  The accumulator
holds the current field reversed. -/
def splitOnTwoNl : List Char → List Char → List (List Char)
  | [], cur => [cur.reverse]
  | '\n' :: '\n' :: rest, cur => cur.reverse :: splitOnTwoNl rest []
  | c :: rest, cur => splitOnTwoNl rest (c :: cur)

/-- text.strip().split with the paragraph separator, as strings. -/
def paraSplit (t : String) : List String :=
  (splitOnTwoNl t.data []).map String.mk

/-- One character of html.escape (quote mode, as the library default). -/
def escapeChar (c : Char) : String :=
  if c = Char.ofNat 38 then "&amp;"
  else if c = Char.ofNat 60 then "&lt;"
  else if c = Char.ofNat 62 then "&gt;"
  else if c = Char.ofNat 34 then "&quot;"
  else if c = Char.ofNat 39 then "&#x27;"
  else String.singleton c

/-- html.escape(para) followed by .replace of single newlines with br tags,
as in assembler.py line 96 (the escape introduces no newlines, so the two
passes fuse into one character-wise pass). -/
def escapeBr (s : String) : String :=
  String.join (s.data.map (fun c =>
    if c = '\n' then "<br/>" else escapeChar c))

/-- The placeholder body element for a missing page
(assembler.py lines 99-101). -/
def placeholderElem (pageNum : Nat) : String :=
  "<p class=\"failed-page\">[Page " ++ toString (pageNum + 1) ++ ": OCR failed]</p>"

/-- A normal paragraph body element (assembler.py line 97). -/
def paraElem (q : String) : String :=
  "<p>" ++ escapeBr q ++ "</p>"

/-- The body elements contributed by one page (assembler.py lines 89-101):
a present, truthy text is stripped, split into paragraphs, each paragraph
stripped and kept only if non-empty; a missing or falsy (empty-string) text
yields the placeholder. -/
def pageElems (pages : List (Nat × String)) (pageNum : Nat) : List String :=
  match lookupKey pages pageNum with
  | none => [placeholderElem pageNum]
  | some t =>
      if ¬ t = "" then
        (((paraSplit (pyStrip t)).map pyStrip).filter
          (fun q => ¬ q = "")).map paraElem
      else [placeholderElem pageNum]

/-- One chapter of the assembled book: its page range and the body_parts
list built for it. -/
structure Chapter where
  chStart : Nat
  chEnd : Nat
  bodyParts : List String
deriving DecidableEq

/-- Python range(0, totalPages, per) for per > 0: the chapter start
indices (assembler.py line 84). -/
def chapterStarts (totalPages per : Nat) : List Nat :=
  (List.range ((totalPages + per - 1) / per)).map (fun i => i * per)

/-- The chapter construction of assemble_epub (assembler.py lines 84-118).
Book metadata, CSS and the on-disk epub container are not modelled; the
chapters carry the body_parts lists, which is what the claims inspect. -/
def assemble_epub (pages : List (Nat × String)) (totalPages : Nat)
    (per : Nat) : List Chapter :=
  (chapterStarts totalPages per).map (fun chStart =>
    let chEnd := min (chStart + per) totalPages
    { chStart := chStart
      chEnd := chEnd
      bodyParts :=
        ((List.range (chEnd - chStart)).map (fun i => i + chStart)).flatMap
          (pageElems pages) })

theorem pageElems_mem_chapter (pages : List (Nat × String)) (totalPages per : Nat)
    (hper : 0 < per) (p : Nat) (hp : p < totalPages) :
    ∃ ch ∈ assemble_epub pages totalPages per,
      ch.chStart = p / per * per ∧ ch.chStart ≤ p ∧ p < ch.chEnd ∧
      ∀ x ∈ pageElems pages p, x ∈ ch.bodyParts := by
  have hcomm : p / per * per = per * (p / per) := Nat.mul_comm _ _
  have hmod := Nat.div_add_mod p per
  have hltmod : p % per < per := Nat.mod_lt _ hper
  have hle : p / per * per ≤ p := Nat.div_mul_le_self p per
  have hidx : p / per < (totalPages + per - 1) / per := by
    have h2 : totalPages + per - 1 = (totalPages - 1) + per := by omega
    rw [h2, Nat.add_div_right _ hper]
    have h1 : p / per ≤ (totalPages - 1) / per :=
      Nat.div_le_div_right (by omega)
    omega
  refine ⟨_, List.mem_map_of_mem _
    (List.mem_map_of_mem _ (List.mem_range.mpr hidx)), rfl, hle, ?_, ?_⟩
  · refine lt_min_iff.mpr ⟨by omega, hp⟩
  · intro x hx
    have hmem : p ∈ (List.range (min (p / per * per + per) totalPages
        - p / per * per)).map (fun i => i + p / per * per) := by
      refine List.mem_map.mpr ⟨p - p / per * per, List.mem_range.mpr ?_, by omega⟩
      have hminle : p / per * per ≤ min (p / per * per + per) totalPages :=
        le_min_iff.mpr ⟨by omega, by omega⟩
      have hpmin : p < min (p / per * per + per) totalPages :=
        lt_min_iff.mpr ⟨by omega, hp⟩
      omega
    exact List.mem_flatMap.mpr ⟨p, hmem, hx⟩

/-- Claim C10, counterexample.  The claim states that a page present in the
mapping whose stripped paragraphs are all empty is rendered like a missing
page, with the failed-page placeholder.  For the single page 0 mapped to a
one-space text, the truthiness test on the raw text succeeds, the stripped
paragraph is empty and is skipped, and the page contributes no element at
all: the assembled book body is empty, with no placeholder, unlike the
rendering of a genuinely missing page. -/
theorem c10_counterexample :
    lookupKey [(0, " ")] 0 = some " " ∧
    pyStrip " " = "" ∧
    pageElems [(0, " ")] 0 = [] ∧
    pageElems ([] : List (Nat × String)) 0 = [placeholderElem 0] ∧
    ¬ pageElems [(0, " ")] 0 = pageElems ([] : List (Nat × String)) 0 ∧
    (assemble_epub [(0, " ")] 1 20).map Chapter.bodyParts = [[]] := by
  decide

/-- Claim C10, amended: a page missing from the mapping, or present with
text equal to the empty string, contributes exactly the styled failed-page
placeholder to its chapter; a page present with a non-empty text all of
whose stripped paragraphs are empty contributes no element at all (neither
a normal paragraph nor the placeholder).  In each case the page's elements
land in the chapter covering the page. -/
theorem c10_blank_page_rendering (pages : List (Nat × String))
    (totalPages per p : Nat) (hper : 0 < per) (hp : p < totalPages) :
    (lookupKey pages p = none → pageElems pages p = [placeholderElem p]) ∧
    (lookupKey pages p = some "" → pageElems pages p = [placeholderElem p]) ∧
    (∀ t, lookupKey pages p = some t → ¬ t = "" →
      (∀ q ∈ paraSplit (pyStrip t), pyStrip q = "") →
      pageElems pages p = []) ∧
    (∃ ch ∈ assemble_epub pages totalPages per,
      ch.chStart ≤ p ∧ p < ch.chEnd ∧
      ∀ x ∈ pageElems pages p, x ∈ ch.bodyParts) := by
  refine ⟨?_, ?_, ?_, ?_⟩
  · intro h; simp [pageElems, h]
  · intro h; simp [pageElems, h]
  · intro t hlk ht hall
    simp only [pageElems, hlk, if_pos ht]
    rw [List.map_eq_nil_iff, List.filter_eq_nil_iff]
    intro q hq
    rcases List.mem_map.mp hq with ⟨q0, hq0, rfl⟩
    simp [hall q0 hq0]
  · rcases pageElems_mem_chapter pages totalPages per hper p hp with
      ⟨ch, hm, _, h1, h2, h3⟩
    exact ⟨ch, hm, h1, h2, h3⟩

/-- Witness for the amended claim C10: in a two-page book whose page 1 is
present with empty text, page 1 contributes exactly the placeholder, inside
the chapter covering it. -/
theorem c10_blank_page_rendering_witness :
    pageElems [(1, "")] 1 = [placeholderElem 1] ∧
    (∃ ch ∈ assemble_epub [(1, "")] 2 20,
      ch.chStart ≤ 1 ∧ 1 < ch.chEnd ∧
      ∀ x ∈ pageElems [(1, "")] 1, x ∈ ch.bodyParts) :=
  ⟨(c10_blank_page_rendering [(1, "")] 2 20 1 (by decide) (by decide)).2.1 rfl,
   (c10_blank_page_rendering [(1, "")] 2 20 1 (by decide) (by decide)).2.2.2⟩

/-! ### Embedding of app/pipeline/orchestrator.py

The run is modelled deterministically: the outcome of every external effect
(rendered pages, each page's OCR call, each page's checkpoint write, the
assembly phase) is a parameter.  The worker pool drains the queue with the
pages processed one at a time; since each queued page updates only its own
key of job.pages, the final job state does not depend on the interleaving
of the workers, so the sequential order stands for any schedule.  save_job
persists job.json and is not modelled (no claim reads the on-disk record);
a renderer failure surfaces as a truncated renderedPages list (the producer
logs and ships the sentinel); a fatal exception in the try block is
modelled at the assembly phase, the only fallible operation left in it. -/

/-- settings.default_ocr_prompt (app/config.py). -/
def defaultOcrPrompt : String :=
  "Extract all text from this scanned book page. Preserve paragraph structure. Output only the extracted text, nothing else."

/-- settings.pages_per_chapter (app/config.py). -/
def pagesPerChapter : Nat := 20

/-- Outcomes of the external effects of one pipeline run. -/
structure PipelineEnv where
  renderedPages : List Nat
  ocr : Nat → String → Except String String
  checkpoint : Nat → Except String Unit
  assembleError : Option String
  startTime : Int
  endTime : Int

/-- The state threaded through the worker loop: the job, the emitter, and
the per-page checkpoint files written so far (page number and content). -/
structure WorkerState where
  job : Job
  emitter : EventEmitter
  checkpoints : List (Nat × String)

/-- One iteration of the worker body (orchestrator.py lines 76-111) for a
dequeued page: mark it processing, call OCR with the effective prompt; on
success record the success, then attempt the checkpoint write — whose
failure is caught by the same except clause as an OCR failure, overwriting
the status to failed with the write error (the text set on line 86
remains); on OCR failure record the failure. -/
def workerStep (env : PipelineEnv) (s : WorkerState) (p : Nat) : WorkerState :=
  let job := s.job
  let pages1 := alistSet job.pages p
    { page := p, status := PageStatus.processing, text := "", error := none }
  let prompt := job.ocrPrompt.getD defaultOcrPrompt
  match env.ocr p prompt with
  | Except.ok text =>
      let pages2 := alistSet pages1 p
        { page := p, status := PageStatus.success, text := text, error := none }
      match env.checkpoint p with
      | Except.ok _ =>
          { job := { job with pages := pages2 }
            emitter := (s.emitter.emit "page.completed" "").1
            checkpoints := s.checkpoints ++ [(p, text)] }
      | Except.error msg =>
          let pages3 := alistSet pages2 p
            { page := p, status := PageStatus.failed, text := text
              error := some msg }
          { job := { job with pages := pages3 }
            emitter := (s.emitter.emit "page.completed" "").1
            checkpoints := s.checkpoints }
  | Except.error msg =>
      let pages2 := alistSet pages1 p
        { page := p, status := PageStatus.failed, text := "", error := some msg }
      { job := { job with pages := pages2 }
        emitter := (s.emitter.emit "page.completed" "").1
        checkpoints := s.checkpoints }

/-- The pages that reach the queue: the rendered pages, skipping those
outside the filter when one is given (orchestrator.py lines 59-62). -/
def runQueue (env : PipelineEnv) (pagesToProcess : Option (List Nat)) :
    List Nat :=
  env.renderedPages.filter (fun p =>
    match pagesToProcess with
    | none => true
    | some f => f.contains p)

/-- The assembler input (orchestrator.py lines 129-133): texts of the pages
whose status is success. -/
def pageTexts (pages : List (Nat × PageResult)) : List (Nat × String) :=
  (pages.filter (fun kv => kv.2.status = PageStatus.success)).map
    (fun kv => (kv.1, kv.2.text))

/-- The observable outcome of one pipeline run. -/
structure RunResult where
  job : Job
  emitter : EventEmitter
  checkpoints : List (Nat × String)
  archive : Option (List Chapter)

/-- run_pipeline (orchestrator.py lines 24-166): mark the job processing,
emit job.started, drain the queue through the workers, mark it assembling,
emit job.assembling, then either assemble and complete (setting
completed_at) or, on a fatal assembly-phase exception, mark the job failed
with the message (completed_at is not written on this path); the emitter is
closed in the finally clause on both paths. -/
def run_pipeline (env : PipelineEnv) (job0 : Job) (emitter0 : EventEmitter)
    (pagesToProcess : Option (List Nat)) : RunResult :=
  let job1 := { job0 with
    status := JobStatus.processing, startedAt := some env.startTime }
  let em1 := (emitter0.emit "job.started" "").1
  let s1 := (runQueue env pagesToProcess).foldl (workerStep env)
    { job := job1, emitter := em1, checkpoints := [] }
  let job2 := { s1.job with status := JobStatus.assembling }
  let em2 := (s1.emitter.emit "job.assembling" "").1
  match env.assembleError with
  | some msg =>
      { job := { job2 with status := JobStatus.failed, error := some msg }
        emitter := ((em2.emit "job.failed" "").1).close
        checkpoints := s1.checkpoints
        archive := none }
  | none =>
      { job := { job2 with
          status := JobStatus.completed, completedAt := some env.endTime }
        emitter := ((em2.emit "job.completed" "").1).close
        checkpoints := s1.checkpoints
        archive := some (assemble_epub (pageTexts s1.job.pages)
          s1.job.totalPages pagesPerChapter) }

theorem lookupKey_mapSet_ne {κ α : Type} [DecidableEq κ]
    (l : List (κ × α)) (k i : κ) (v : α) (hne : ¬ i = k) :
    lookupKey (l.map (fun kv => if kv.1 = k then (k, v) else kv)) i =
      lookupKey l i := by
  induction l with
  | nil => rfl
  | cons kv rest ih =>
      by_cases h : kv.1 = k
      · have h2 : ¬ kv.1 = i := fun hh => hne (hh ▸ h)
        have h3 : ¬ k = i := fun hh => hne hh.symm
        simp only [List.map_cons, if_pos h, lookupKey, if_neg h3, if_neg h2]
        exact ih
      · simp only [List.map_cons, if_neg h, lookupKey]
        by_cases h2 : kv.1 = i
        · rw [if_pos h2, if_pos h2]
        · rw [if_neg h2, if_neg h2]
          exact ih

theorem lookupKey_append_ne {κ α : Type} [DecidableEq κ]
    (l : List (κ × α)) (k i : κ) (v : α) (hne : ¬ i = k) :
    lookupKey (l ++ [(k, v)]) i = lookupKey l i := by
  induction l with
  | nil =>
      have h3 : ¬ k = i := fun hh => hne hh.symm
      simp [lookupKey, h3]
  | cons kv rest ih =>
      simp only [List.cons_append, lookupKey]
      by_cases h2 : kv.1 = i
      · rw [if_pos h2, if_pos h2]
      · rw [if_neg h2, if_neg h2]
        exact ih

theorem lookupKey_alistSet_ne {κ α : Type} [DecidableEq κ]
    (l : List (κ × α)) (k i : κ) (v : α) (hne : ¬ i = k) :
    lookupKey (alistSet l k v) i = lookupKey l i := by
  unfold alistSet
  by_cases h : l.any (fun kv => kv.1 = k) = true
  · rw [if_pos h]
    exact lookupKey_mapSet_ne l k i v hne
  · rw [if_neg h]
    exact lookupKey_append_ne l k i v hne

theorem lookupKey_alistSet_self {κ α : Type} [DecidableEq κ]
    (l : List (κ × α)) (k : κ) (v : α) :
    lookupKey (alistSet l k v) k = some v := by
  induction l with
  | nil => simp [alistSet, lookupKey]
  | cons kv rest ih =>
      by_cases h1 : kv.1 = k
      · have hany : (kv :: rest).any (fun kv2 => decide (kv2.1 = k)) = true := by
          simp [List.any_cons, h1]
        unfold alistSet
        rw [if_pos hany]
        simp [List.map_cons, if_pos h1, lookupKey]
      · by_cases h2 : rest.any (fun kv2 => decide (kv2.1 = k)) = true
        · have hany : (kv :: rest).any (fun kv2 => decide (kv2.1 = k)) = true := by
            simp only [List.any_cons, h2, Bool.or_true]
          unfold alistSet
          rw [if_pos hany]
          simp only [List.map_cons, if_neg h1, lookupKey]
          have hrest := ih
          unfold alistSet at hrest
          rw [if_pos h2] at hrest
          exact hrest
        · have hany : ¬ (kv :: rest).any (fun kv2 => decide (kv2.1 = k)) = true := by
            simp only [List.any_cons, Bool.or_eq_true, decide_eq_true_eq]
            push_neg
            refine ⟨h1, ?_⟩
            simpa using h2
          unfold alistSet
          rw [if_neg hany]
          simp only [List.cons_append, lookupKey, if_neg h1]
          have hrest := ih
          unfold alistSet at hrest
          rw [if_neg h2] at hrest
          exact hrest

/-- The final PageResult the worker leaves for a processed page, by the
outcome of its OCR call and checkpoint write. -/
def pageOutcome (env : PipelineEnv) (prompt : String) (p : Nat) : PageResult :=
  match env.ocr p prompt with
  | Except.ok text =>
      match env.checkpoint p with
      | Except.ok _ =>
          { page := p, status := PageStatus.success, text := text, error := none }
      | Except.error msg =>
          { page := p, status := PageStatus.failed, text := text, error := some msg }
  | Except.error msg =>
      { page := p, status := PageStatus.failed, text := "", error := some msg }

/-- The checkpoint file the worker writes for a processed page, if any. -/
def cpOutcome (env : PipelineEnv) (prompt : String) (q : Nat) :
    Option (Nat × String) :=
  match env.ocr q prompt, env.checkpoint q with
  | Except.ok t, Except.ok _ => some (q, t)
  | Except.ok _, Except.error _ => none
  | Except.error _, _ => none

theorem workerStep_job_eq (env : PipelineEnv) (s : WorkerState) (p : Nat) :
    (workerStep env s p).job =
      { s.job with pages := (workerStep env s p).job.pages } := by
  dsimp only [workerStep]
  cases env.ocr p (s.job.ocrPrompt.getD defaultOcrPrompt) with
  | ok text =>
      cases env.checkpoint p with
      | ok u => rfl
      | error msg => rfl
  | error msg => rfl

theorem workerStep_ocrPrompt (env : PipelineEnv) (s : WorkerState) (p : Nat) :
    (workerStep env s p).job.ocrPrompt = s.job.ocrPrompt := by
  rw [workerStep_job_eq]

theorem workerStep_completedAt (env : PipelineEnv) (s : WorkerState) (p : Nat) :
    (workerStep env s p).job.completedAt = s.job.completedAt := by
  rw [workerStep_job_eq]

theorem workerStep_totalPages (env : PipelineEnv) (s : WorkerState) (p : Nat) :
    (workerStep env s p).job.totalPages = s.job.totalPages := by
  rw [workerStep_job_eq]

theorem workerStep_checkpoints (env : PipelineEnv) (s : WorkerState) (p : Nat) :
    (workerStep env s p).checkpoints = s.checkpoints ++
      (cpOutcome env (s.job.ocrPrompt.getD defaultOcrPrompt) p).toList := by
  dsimp only [workerStep, cpOutcome]
  cases env.ocr p (s.job.ocrPrompt.getD defaultOcrPrompt) with
  | ok text =>
      cases env.checkpoint p with
      | ok u => rfl
      | error msg => simp
  | error msg => simp

theorem workerStep_pages_self (env : PipelineEnv) (s : WorkerState) (p : Nat) :
    lookupKey (workerStep env s p).job.pages p =
      some (pageOutcome env (s.job.ocrPrompt.getD defaultOcrPrompt) p) := by
  dsimp only [workerStep, pageOutcome]
  cases env.ocr p (s.job.ocrPrompt.getD defaultOcrPrompt) with
  | ok text =>
      cases env.checkpoint p with
      | ok u => exact lookupKey_alistSet_self _ _ _
      | error msg => exact lookupKey_alistSet_self _ _ _
  | error msg => exact lookupKey_alistSet_self _ _ _

theorem workerStep_pages_ne (env : PipelineEnv) (s : WorkerState) (p i : Nat)
    (hne : ¬ i = p) :
    lookupKey (workerStep env s p).job.pages i = lookupKey s.job.pages i := by
  dsimp only [workerStep]
  cases env.ocr p (s.job.ocrPrompt.getD defaultOcrPrompt) with
  | ok text =>
      cases env.checkpoint p with
      | ok u =>
          simp only
          rw [lookupKey_alistSet_ne _ _ _ _ hne, lookupKey_alistSet_ne _ _ _ _ hne]
      | error msg =>
          simp only
          rw [lookupKey_alistSet_ne _ _ _ _ hne, lookupKey_alistSet_ne _ _ _ _ hne,
            lookupKey_alistSet_ne _ _ _ _ hne]
  | error msg =>
      simp only
      rw [lookupKey_alistSet_ne _ _ _ _ hne, lookupKey_alistSet_ne _ _ _ _ hne]

theorem workerFold_ocrPrompt (env : PipelineEnv) (queue : List Nat) :
    ∀ s : WorkerState,
      ((queue.foldl (workerStep env) s).job.ocrPrompt = s.job.ocrPrompt) := by
  induction queue with
  | nil => intro s; rfl
  | cons q rest ih =>
      intro s
      rw [List.foldl_cons, ih, workerStep_ocrPrompt]

theorem workerFold_completedAt (env : PipelineEnv) (queue : List Nat) :
    ∀ s : WorkerState,
      ((queue.foldl (workerStep env) s).job.completedAt = s.job.completedAt) := by
  induction queue with
  | nil => intro s; rfl
  | cons q rest ih =>
      intro s
      rw [List.foldl_cons, ih, workerStep_completedAt]

theorem workerFold_totalPages (env : PipelineEnv) (queue : List Nat) :
    ∀ s : WorkerState,
      ((queue.foldl (workerStep env) s).job.totalPages = s.job.totalPages) := by
  induction queue with
  | nil => intro s; rfl
  | cons q rest ih =>
      intro s
      rw [List.foldl_cons, ih, workerStep_totalPages]

theorem workerFold_pages_ne (env : PipelineEnv) (queue : List Nat) :
    ∀ (s : WorkerState) (i : Nat), i ∉ queue →
      lookupKey ((queue.foldl (workerStep env) s).job.pages) i =
        lookupKey s.job.pages i := by
  induction queue with
  | nil => intro s i _; rfl
  | cons q rest ih =>
      intro s i hni
      have h1 : i ∉ rest := fun hh => hni (List.mem_cons_of_mem _ hh)
      have h2 : ¬ i = q := fun hh => hni (hh ▸ List.mem_cons_self q rest)
      rw [List.foldl_cons, ih _ i h1, workerStep_pages_ne env s q i h2]

theorem workerFold_pages_mem (env : PipelineEnv) (queue : List Nat) :
    ∀ (s : WorkerState) (p : Nat), p ∈ queue →
      lookupKey ((queue.foldl (workerStep env) s).job.pages) p =
        some (pageOutcome env (s.job.ocrPrompt.getD defaultOcrPrompt) p) := by
  induction queue with
  | nil => intro s p hp; exact absurd hp (List.not_mem_nil p)
  | cons q rest ih =>
      intro s p hp
      rw [List.foldl_cons]
      by_cases hr : p ∈ rest
      · rw [ih _ p hr, workerStep_ocrPrompt]
      · have hpq : p = q := by
          rcases List.mem_cons.mp hp with h | h
          · exact h
          · exact absurd h hr
        subst hpq
        rw [workerFold_pages_ne env rest _ p hr, workerStep_pages_self]

theorem workerFold_checkpoints (env : PipelineEnv) (queue : List Nat) :
    ∀ s : WorkerState,
      (queue.foldl (workerStep env) s).checkpoints =
        s.checkpoints ++ queue.filterMap
          (cpOutcome env (s.job.ocrPrompt.getD defaultOcrPrompt)) := by
  induction queue with
  | nil => intro s; simp
  | cons q rest ih =>
      intro s
      rw [List.foldl_cons, ih, workerStep_ocrPrompt, workerStep_checkpoints,
        List.filterMap_cons]
      cases cpOutcome env (s.job.ocrPrompt.getD defaultOcrPrompt) q with
      | none => simp
      | some x => simp

/-- The worker-loop start state built at the top of run_pipeline. -/
def runWorkerState (env : PipelineEnv) (job0 : Job) (em0 : EventEmitter) :
    WorkerState :=
  { job := { job0 with
      status := JobStatus.processing, startedAt := some env.startTime }
    emitter := (em0.emit "job.started" "").1
    checkpoints := [] }

theorem run_pipeline_pages (env : PipelineEnv) (job0 : Job) (em0 : EventEmitter)
    (ptp : Option (List Nat)) :
    (run_pipeline env job0 em0 ptp).job.pages =
      ((runQueue env ptp).foldl (workerStep env)
        (runWorkerState env job0 em0)).job.pages := by
  dsimp only [run_pipeline, runWorkerState]
  cases env.assembleError <;> rfl

theorem run_pipeline_checkpoints (env : PipelineEnv) (job0 : Job)
    (em0 : EventEmitter) (ptp : Option (List Nat)) :
    (run_pipeline env job0 em0 ptp).checkpoints =
      ((runQueue env ptp).foldl (workerStep env)
        (runWorkerState env job0 em0)).checkpoints := by
  dsimp only [run_pipeline, runWorkerState]
  cases env.assembleError <;> rfl

theorem run_pipeline_ok (env : PipelineEnv) (job0 : Job) (em0 : EventEmitter)
    (ptp : Option (List Nat)) (h : env.assembleError = none) :
    (run_pipeline env job0 em0 ptp).job.status = JobStatus.completed ∧
    (run_pipeline env job0 em0 ptp).job.completedAt = some env.endTime ∧
    (run_pipeline env job0 em0 ptp).archive =
      some (assemble_epub
        (pageTexts ((runQueue env ptp).foldl (workerStep env)
          (runWorkerState env job0 em0)).job.pages)
        (((runQueue env ptp).foldl (workerStep env)
          (runWorkerState env job0 em0)).job.totalPages)
        pagesPerChapter) := by
  dsimp only [run_pipeline, runWorkerState]
  rw [h]
  exact ⟨rfl, rfl, rfl⟩

theorem run_pipeline_fail (env : PipelineEnv) (job0 : Job) (em0 : EventEmitter)
    (ptp : Option (List Nat)) (msg : String) (h : env.assembleError = some msg) :
    (run_pipeline env job0 em0 ptp).job.status = JobStatus.failed ∧
    (run_pipeline env job0 em0 ptp).job.error = some msg ∧
    (run_pipeline env job0 em0 ptp).job.completedAt =
      ((runQueue env ptp).foldl (workerStep env)
        (runWorkerState env job0 em0)).job.completedAt ∧
    (run_pipeline env job0 em0 ptp).archive = none := by
  dsimp only [run_pipeline, runWorkerState]
  rw [h]
  exact ⟨rfl, rfl, rfl, rfl⟩

theorem cpOutcome_some_key (env : PipelineEnv) (prompt : String) (q : Nat)
    (x : Nat × String) (h : cpOutcome env prompt q = some x) : x.1 = q := by
  dsimp only [cpOutcome] at h
  cases hocr : env.ocr q prompt with
  | ok t =>
      cases hcp : env.checkpoint q with
      | ok u =>
          simp only [hocr, hcp, Option.some.injEq] at h
          rw [← h]
      | error msg =>
          simp only [hocr, hcp] at h
          exact Option.noConfusion h
  | error msg =>
      simp only [hocr] at h
      exact Option.noConfusion h

theorem lookupKey_mem {κ α : Type} [DecidableEq κ] (l : List (κ × α)) (k : κ)
    (v : α) (h : lookupKey l k = some v) : (k, v) ∈ l := by
  induction l with
  | nil => exact absurd h (by simp [lookupKey])
  | cons kv rest ih =>
      by_cases h2 : kv.1 = k
      · rw [lookupKey, if_pos h2] at h
        injection h with h3
        have : kv = (k, v) := by
          rcases kv with ⟨a, b⟩
          simp at h2 h3
          exact congrArg₂ Prod.mk h2 h3
        rw [← this]
        exact List.mem_cons_self _ _
      · rw [lookupKey, if_neg h2] at h
        exact List.mem_cons_of_mem _ (ih h)

/-- A fresh one-page job used by the claim C2 counterexample and witness. -/
def c2Job : Job :=
  { id := "job-c2", status := JobStatus.pending, totalPages := 1
    pages := [(0, { page := 0, status := PageStatus.pending, text := ""
                    error := none })]
    language := "fa", ocrPrompt := none, renderDpi := none, jpegQuality := none
    createdAt := 0, startedAt := none, completedAt := none, error := none
    pdfFilename := "b.pdf" }

/-- A run in which OCR succeeds on page 0 but the checkpoint write fails. -/
def c2Env : PipelineEnv :=
  { renderedPages := [0]
    ocr := fun _ _ => Except.ok "hello"
    checkpoint := fun _ => Except.error "disk full"
    assembleError := none
    startTime := 10, endTime := 20 }

/-- Claim C2, counterexample.  The claim states that when OCR succeeds and
the checkpoint write fails, the in-memory PageResult still records status
success with the extracted text.  In the concrete run of c2Env, the write
error is caught by the same except clause as an OCR failure (orchestrator.py
line 99) and the page is recorded as failed with the write error (the text
remains); the job itself still completes. -/
theorem c2_counterexample :
    (run_pipeline c2Env c2Job (EventEmitter.new 200) none).job.status =
      JobStatus.completed ∧
    lookupKey (run_pipeline c2Env c2Job (EventEmitter.new 200) none).job.pages 0 =
      some { page := 0, status := PageStatus.failed, text := "hello"
             error := some "disk full" } := by
  exact ⟨rfl, rfl⟩

/-- Claim C2, amended: a checkpoint write failure after a successful OCR
does not fail the job (the run still completes), but the in-memory
PageResult is overwritten to status failed with the write error message —
the extracted text is retained in the text field — and no checkpoint entry
is recorded for the page. -/
theorem c2_checkpoint_write_failure (env : PipelineEnv) (job0 : Job)
    (em0 : EventEmitter) (ptp : Option (List Nat)) (p : Nat) (t e : String)
    (hq : p ∈ runQueue env ptp)
    (hocr : env.ocr p (job0.ocrPrompt.getD defaultOcrPrompt) = Except.ok t)
    (hcp : env.checkpoint p = Except.error e)
    (hassemble : env.assembleError = none) :
    (run_pipeline env job0 em0 ptp).job.status = JobStatus.completed ∧
    lookupKey (run_pipeline env job0 em0 ptp).job.pages p =
      some { page := p, status := PageStatus.failed, text := t
             error := some e } ∧
    (∀ t2, (p, t2) ∉ (run_pipeline env job0 em0 ptp).checkpoints) := by
  refine ⟨(run_pipeline_ok env job0 em0 ptp hassemble).1, ?_, ?_⟩
  · rw [run_pipeline_pages,
      workerFold_pages_mem env (runQueue env ptp) _ p hq]
    have hprompt : (runWorkerState env job0 em0).job.ocrPrompt = job0.ocrPrompt :=
      rfl
    rw [hprompt]
    dsimp only [pageOutcome]
    rw [hocr, hcp]
  · intro t2 hmem
    rw [run_pipeline_checkpoints,
      workerFold_checkpoints env (runQueue env ptp)] at hmem
    have hprompt : (runWorkerState env job0 em0).job.ocrPrompt = job0.ocrPrompt :=
      rfl
    rw [hprompt] at hmem
    dsimp only [runWorkerState] at hmem
    simp only [List.nil_append] at hmem
    rcases List.mem_filterMap.mp hmem with ⟨q, _, hcpq⟩
    have hkey : p = q := cpOutcome_some_key env _ q (p, t2) hcpq
    subst hkey
    dsimp only [cpOutcome] at hcpq
    rw [hocr, hcp] at hcpq
    exact Option.noConfusion hcpq

/-- Witness for the amended claim C2 at the concrete run of c2Env: the job
completes, page 0 holds the OCR text with status failed and the write
error, and no checkpoint file was written. -/
theorem c2_checkpoint_write_failure_witness :
    (run_pipeline c2Env c2Job (EventEmitter.new 200) none).job.status =
      JobStatus.completed ∧
    lookupKey (run_pipeline c2Env c2Job (EventEmitter.new 200) none).job.pages 0 =
      some { page := 0, status := PageStatus.failed, text := "hello"
             error := some "disk full" } ∧
    (∀ t2, (0, t2) ∉ (run_pipeline c2Env c2Job (EventEmitter.new 200) none).checkpoints) := by
  have h := c2_checkpoint_write_failure c2Env c2Job (EventEmitter.new 200) none
    0 "hello" "disk full" (by decide) rfl rfl rfl
  exact h

/-- A fresh one-page job used by the claim C3 counterexample and witness. -/
def c3Job : Job :=
  { id := "job-c3", status := JobStatus.pending, totalPages := 1
    pages := [(0, { page := 0, status := PageStatus.pending, text := ""
                    error := none })]
    language := "fa", ocrPrompt := none, renderDpi := none, jpegQuality := none
    createdAt := 0, startedAt := none, completedAt := none, error := none
    pdfFilename := "c.pdf" }

/-- A run whose assembly phase raises a fatal exception. -/
def c3Env : PipelineEnv :=
  { renderedPages := [0]
    ocr := fun _ _ => Except.ok "text"
    checkpoint := fun _ => Except.ok ()
    assembleError := some "boom"
    startTime := 10, endTime := 20 }

/-- Claim C3, counterexample.  The claim states that after pipeline exit
completed_at is set iff the status is completed or failed, so a failed run
must have completed_at set.  In the concrete failed run of c3Env the job
exits with status failed and completed_at still unset: the except branch of
run_pipeline (orchestrator.py lines 159-164) never writes completed_at. -/
theorem c3_counterexample :
    (run_pipeline c3Env c3Job (EventEmitter.new 200) none).job.status =
      JobStatus.failed ∧
    (run_pipeline c3Env c3Job (EventEmitter.new 200) none).job.completedAt =
      none := by
  exact ⟨rfl, rfl⟩

/-- Claim C3, amended: for a job entering the run with completed_at unset,
after the pipeline run exits completed_at is set if and only if the status
is completed; a run that exits with status failed leaves completed_at unset
(and records the fatal message in the error field). -/
theorem c3_completed_at_iff_completed (env : PipelineEnv) (job0 : Job)
    (em0 : EventEmitter) (ptp : Option (List Nat))
    (h0 : job0.completedAt = none) :
    ((run_pipeline env job0 em0 ptp).job.completedAt.isSome ↔
      (run_pipeline env job0 em0 ptp).job.status = JobStatus.completed) ∧
    (∀ msg, env.assembleError = some msg →
      (run_pipeline env job0 em0 ptp).job.status = JobStatus.failed ∧
      (run_pipeline env job0 em0 ptp).job.completedAt = none ∧
      (run_pipeline env job0 em0 ptp).job.error = some msg) := by
  cases ha : env.assembleError with
  | none =>
      have h := run_pipeline_ok env job0 em0 ptp ha
      constructor
      · rw [h.1, h.2.1]
        simp
      · intro msg hmsg
        exact Option.noConfusion hmsg
  | some msg0 =>
      have h := run_pipeline_fail env job0 em0 ptp msg0 ha
      have hfold : ((runQueue env ptp).foldl (workerStep env)
          (runWorkerState env job0 em0)).job.completedAt = none := by
        rw [workerFold_completedAt]
        exact h0
      have hnone : (run_pipeline env job0 em0 ptp).job.completedAt = none := by
        rw [h.2.2.1, hfold]
      constructor
      · rw [h.1, hnone]
        simp
      · intro msg hmsg
        rw [Option.some.injEq] at hmsg
        subst hmsg
        exact ⟨h.1, hnone, h.2.1⟩

/-- Witness for the amended claim C3 at the concrete failed run of c3Env. -/
theorem c3_completed_at_iff_completed_witness :
    ((run_pipeline c3Env c3Job (EventEmitter.new 200) none).job.completedAt.isSome ↔
      (run_pipeline c3Env c3Job (EventEmitter.new 200) none).job.status =
        JobStatus.completed) ∧
    (run_pipeline c3Env c3Job (EventEmitter.new 200) none).job.status =
      JobStatus.failed ∧
    (run_pipeline c3Env c3Job (EventEmitter.new 200) none).job.completedAt =
      none := by
  have h := c3_completed_at_iff_completed c3Env c3Job (EventEmitter.new 200)
    none rfl
  have h2 := h.2 "boom" rfl
  exact ⟨h.1, h2.1, h2.2.1⟩

/-- Claim C6: in a retry run with filter F, every page outside F keeps its
pre-run PageResult (status, text and error) unchanged, while the assembler
still runs over the successful results of the whole pages mapping — in
particular every pre-run success outside F is part of the assembler
input. -/
theorem c6_retry_filter_frame (env : PipelineEnv) (job0 : Job)
    (em0 : EventEmitter) (F : List Nat)
    (hassemble : env.assembleError = none) :
    (∀ p, F.contains p = false →
      lookupKey (run_pipeline env job0 em0 (some F)).job.pages p =
        lookupKey job0.pages p) ∧
    (run_pipeline env job0 em0 (some F)).archive =
      some (assemble_epub
        (pageTexts (run_pipeline env job0 em0 (some F)).job.pages)
        job0.totalPages pagesPerChapter) ∧
    (∀ p pr, F.contains p = false → lookupKey job0.pages p = some pr →
      pr.status = PageStatus.success →
      (p, pr.text) ∈ pageTexts (run_pipeline env job0 em0 (some F)).job.pages) := by
  have hframe : ∀ p, F.contains p = false →
      lookupKey (run_pipeline env job0 em0 (some F)).job.pages p =
        lookupKey job0.pages p := by
    intro p hp
    have hnq : p ∉ runQueue env (some F) := by
      intro hmem
      dsimp only [runQueue] at hmem
      rcases List.mem_filter.mp hmem with ⟨_, hcont⟩
      rw [hp] at hcont
      exact Bool.noConfusion hcont
    rw [run_pipeline_pages, workerFold_pages_ne env _ _ p hnq]
    rfl
  refine ⟨hframe, ?_, ?_⟩
  · have h := (run_pipeline_ok env job0 em0 (some F) hassemble).2.2
    rw [h, run_pipeline_pages]
    have htot : ((runQueue env (some F)).foldl (workerStep env)
        (runWorkerState env job0 em0)).job.totalPages = job0.totalPages := by
      rw [workerFold_totalPages]
      rfl
    rw [htot]
  · intro p pr hp hlk hsucc
    have hmem : (p, pr) ∈ (run_pipeline env job0 em0 (some F)).job.pages := by
      apply lookupKey_mem
      rw [hframe p hp]
      exact hlk
    dsimp only [pageTexts]
    refine List.mem_map.mpr ⟨(p, pr), List.mem_filter.mpr ⟨hmem, ?_⟩, rfl⟩
    simp [hsucc]

/-- A two-page job after a first run: page 0 succeeded with text old, page 1
failed; used by the claim C6 witness. -/
def c6Job : Job :=
  { id := "job-c6", status := JobStatus.failed, totalPages := 2
    pages := [(0, { page := 0, status := PageStatus.success, text := "old"
                    error := none }),
              (1, { page := 1, status := PageStatus.failed, text := ""
                    error := some "HTTP 500" })]
    language := "fa", ocrPrompt := none, renderDpi := none, jpegQuality := none
    createdAt := 0, startedAt := some 1, completedAt := none, error := none
    pdfFilename := "d.pdf" }

/-- The retry run environment for c6Job: both pages render, OCR now
succeeds with text new, checkpoints succeed. -/
def c6Env : PipelineEnv :=
  { renderedPages := [0, 1]
    ocr := fun _ _ => Except.ok "new"
    checkpoint := fun _ => Except.ok ()
    assembleError := none
    startTime := 30, endTime := 40 }

/-- Witness for claim C6 at the concrete retry run of c6Env with filter
[1]: page 0 keeps its old success record, and its old text is part of the
assembler input. -/
theorem c6_retry_filter_frame_witness :
    lookupKey (run_pipeline c6Env c6Job (EventEmitter.new 200) (some [1])).job.pages 0 =
      some { page := 0, status := PageStatus.success, text := "old"
             error := none } ∧
    (0, "old") ∈ pageTexts
      (run_pipeline c6Env c6Job (EventEmitter.new 200) (some [1])).job.pages := by
  have h := c6_retry_filter_frame c6Env c6Job (EventEmitter.new 200) [1] rfl
  constructor
  · rw [h.1 0 rfl]
    rfl
  · exact h.2.2 0 ⟨0, PageStatus.success, "old", none⟩ rfl rfl rfl

theorem alistSet_range_map {α : Type} (total q : Nat) (f : Nat → α) (v : α)
    (hq : q < total) :
    alistSet ((List.range total).map (fun i => (i, f i))) q v =
      (List.range total).map (fun i => (i, if i = q then v else f i)) := by
  unfold alistSet
  have hany : (((List.range total).map (fun i => (i, f i))).any
      (fun kv => decide (kv.1 = q))) = true := by
    rw [List.any_eq_true]
    exact ⟨(q, f q), List.mem_map_of_mem _ (List.mem_range.mpr hq), by simp⟩
  rw [if_pos hany, List.map_map]
  apply List.map_congr_left
  intro i _
  by_cases h : i = q
  · subst h
    simp
  · simp [h]

theorem workerStep_pages_canonical (env : PipelineEnv)
    (s : WorkerState) (q total : Nat) (f : Nat → PageResult)
    (hpages : s.job.pages = (List.range total).map (fun i => (i, f i)))
    (hq : q < total) :
    (workerStep env s q).job.pages = (List.range total).map (fun i =>
      (i, if i = q
          then pageOutcome env (s.job.ocrPrompt.getD defaultOcrPrompt) q
          else f i)) := by
  dsimp only [workerStep, pageOutcome]
  cases env.ocr q (s.job.ocrPrompt.getD defaultOcrPrompt) with
  | ok text =>
      cases env.checkpoint q with
      | ok u =>
          dsimp only
          rw [hpages, alistSet_range_map total q _ _ hq,
            alistSet_range_map total q _ _ hq]
          apply List.map_congr_left
          intro i _
          by_cases h : i = q <;> simp [h]
      | error msg =>
          dsimp only
          rw [hpages, alistSet_range_map total q _ _ hq,
            alistSet_range_map total q _ _ hq,
            alistSet_range_map total q _ _ hq]
          apply List.map_congr_left
          intro i _
          by_cases h : i = q <;> simp [h]
  | error msg =>
      dsimp only
      rw [hpages, alistSet_range_map total q _ _ hq,
        alistSet_range_map total q _ _ hq]
      apply List.map_congr_left
      intro i _
      by_cases h : i = q <;> simp [h]

theorem workerFold_pages_canonical (env : PipelineEnv) (queue : List Nat) :
    ∀ (s : WorkerState) (total : Nat) (f : Nat → PageResult),
      s.job.pages = (List.range total).map (fun i => (i, f i)) →
      (∀ p ∈ queue, p < total) →
      (queue.foldl (workerStep env) s).job.pages =
        (List.range total).map (fun i =>
          (i, if i ∈ queue
              then pageOutcome env (s.job.ocrPrompt.getD defaultOcrPrompt) i
              else f i)) := by
  induction queue with
  | nil =>
      intro s total f hp _
      rw [List.foldl_nil, hp]
      apply List.map_congr_left
      intro i _
      simp
  | cons q rest ih =>
      intro s total f hp hbound
      rw [List.foldl_cons]
      have hq : q < total := hbound q (List.mem_cons_self q rest)
      have hstep := workerStep_pages_canonical env s q total f hp hq
      have hrest := ih (workerStep env s q) total
        (fun i => if i = q
          then pageOutcome env (s.job.ocrPrompt.getD defaultOcrPrompt) q
          else f i)
        hstep
        (fun p hp2 => hbound p (List.mem_cons_of_mem q hp2))
      rw [workerStep_ocrPrompt] at hrest
      rw [hrest]
      apply List.map_congr_left
      intro i _
      by_cases h1 : i ∈ rest
      · simp [h1, List.mem_cons]
      · by_cases h2 : i = q
        · subst h2
          simp [h1]
        · simp [h1, h2, List.mem_cons]

/-- Claim C4: per-page OCR failures never reach the job level.  If the
renderer yields every page of a fresh job and every OCR call fails (and the
assembly phase itself does not throw), the run still reaches assembly,
ends with status completed, records every processed page as failed
(pages_failed equals the number of pages, pages_succeeded is zero), and the
archive is produced with the failed-page placeholder inside the chapter of
every page. -/
theorem c4_all_ocr_fail (env : PipelineEnv) (job0 : Job) (em0 : EventEmitter)
    (m : Nat → String)
    (hrender : env.renderedPages = List.range job0.totalPages)
    (hfresh : job0.pages = (List.range job0.totalPages).map
      (fun i => (i, { page := i, status := PageStatus.pending, text := ""
                      error := none })))
    (hocr : ∀ p prompt, env.ocr p prompt = Except.error (m p))
    (hassemble : env.assembleError = none) :
    (run_pipeline env job0 em0 none).job.status = JobStatus.completed ∧
    (run_pipeline env job0 em0 none).job.pagesFailed = job0.totalPages ∧
    (run_pipeline env job0 em0 none).job.pagesSucceeded = 0 ∧
    (∃ chs, (run_pipeline env job0 em0 none).archive = some chs ∧
      ∀ p, p < job0.totalPages → ∃ ch ∈ chs,
        ch.chStart ≤ p ∧ p < ch.chEnd ∧ placeholderElem p ∈ ch.bodyParts) := by
  have hqueue : runQueue env none = List.range job0.totalPages := by
    dsimp only [runQueue]
    rw [List.filter_true, hrender]
  have hbound : ∀ p ∈ runQueue env none, p < job0.totalPages := by
    intro p hp
    rw [hqueue] at hp
    exact List.mem_range.mp hp
  have hcanon := workerFold_pages_canonical env (runQueue env none)
    (runWorkerState env job0 em0) job0.totalPages
    (fun i => { page := i, status := PageStatus.pending, text := ""
                error := none })
    hfresh hbound
  have hpages2 : ((runQueue env none).foldl (workerStep env)
      (runWorkerState env job0 em0)).job.pages =
      (List.range job0.totalPages).map (fun i =>
        (i, { page := i, status := PageStatus.failed, text := ""
              error := some (m i) })) := by
    rw [hcanon]
    apply List.map_congr_left
    intro i hi
    have hmem : i ∈ runQueue env none := by
      rw [hqueue]
      exact hi
    rw [if_pos hmem]
    have h2 := hocr i ((runWorkerState env job0 em0).job.ocrPrompt.getD
      defaultOcrPrompt)
    simp [pageOutcome, h2]
  refine ⟨(run_pipeline_ok env job0 em0 none hassemble).1, ?_, ?_, ?_⟩
  · dsimp only [Job.pagesFailed]
    rw [run_pipeline_pages, hpages2]
    rw [List.filter_eq_self.mpr ?_]
    · rw [List.length_map, List.length_range]
    · intro kv hkv
      rcases List.mem_map.mp hkv with ⟨i, _, rfl⟩
      simp
  · dsimp only [Job.pagesSucceeded]
    rw [run_pipeline_pages, hpages2]
    rw [List.filter_eq_nil_iff.mpr ?_]
    · rfl
    · intro kv hkv
      rcases List.mem_map.mp hkv with ⟨i, _, rfl⟩
      simp
  · have htexts : pageTexts (((runQueue env none).foldl (workerStep env)
        (runWorkerState env job0 em0)).job.pages) = [] := by
      rw [hpages2]
      dsimp only [pageTexts]
      rw [List.filter_eq_nil_iff.mpr ?_]
      · rfl
      · intro kv hkv
        rcases List.mem_map.mp hkv with ⟨i, _, rfl⟩
        simp
    have htot : ((runQueue env none).foldl (workerStep env)
        (runWorkerState env job0 em0)).job.totalPages = job0.totalPages := by
      rw [workerFold_totalPages]
      rfl
    have harch := (run_pipeline_ok env job0 em0 none hassemble).2.2
    rw [htexts, htot] at harch
    refine ⟨_, harch, ?_⟩
    intro p hp
    rcases pageElems_mem_chapter [] job0.totalPages pagesPerChapter
      (by decide) p hp with ⟨ch, hm, _, ha1, ha2, ha3⟩
    refine ⟨ch, hm, ha1, ha2, ha3 _ ?_⟩
    show placeholderElem p ∈ pageElems [] p
    exact List.mem_singleton_self _

/-- A fresh three-page job and an environment in which every OCR call
fails, for the claim C4 witness. -/
def c4Job : Job :=
  { id := "job-c4", status := JobStatus.pending, totalPages := 3
    pages := (List.range 3).map (fun i =>
      (i, { page := i, status := PageStatus.pending, text := "", error := none }))
    language := "fa", ocrPrompt := none, renderDpi := none, jpegQuality := none
    createdAt := 0, startedAt := none, completedAt := none, error := none
    pdfFilename := "e.pdf" }

def c4Env : PipelineEnv :=
  { renderedPages := List.range 3
    ocr := fun _ _ => Except.error "OCR failed after 3 attempts: HTTP status 500"
    checkpoint := fun _ => Except.ok ()
    assembleError := none
    startTime := 0, endTime := 9 }

/-- Witness for claim C4 at the concrete all-pages-fail run of c4Env. -/
theorem c4_all_ocr_fail_witness :
    (run_pipeline c4Env c4Job (EventEmitter.new 200) none).job.status =
      JobStatus.completed ∧
    (run_pipeline c4Env c4Job (EventEmitter.new 200) none).job.pagesFailed = 3 ∧
    (run_pipeline c4Env c4Job (EventEmitter.new 200) none).job.pagesSucceeded = 0 ∧
    (∃ chs, (run_pipeline c4Env c4Job (EventEmitter.new 200) none).archive =
        some chs ∧
      ∀ p, p < 3 → ∃ ch ∈ chs,
        ch.chStart ≤ p ∧ p < ch.chEnd ∧ placeholderElem p ∈ ch.bodyParts) :=
  c4_all_ocr_fail c4Env c4Job (EventEmitter.new 200)
    (fun _ => "OCR failed after 3 attempts: HTTP status 500")
    rfl rfl (fun _ _ => rfl) rfl

/-! ### Embedding of app/pipeline/ocr.py -/

/-- settings.ocr_retries (app/config.py): the default attempt count. -/
def ocrRetries : Nat := 3

/-- A Python exception as observed through str(): type name and message. -/
structure PyErr where
  typeName : String
  msg : String
deriving DecidableEq

/-- The err_msg / err_detail computation (ocr.py lines 65 and 75):
str(exc) or the type-name fallback when the message is empty. -/
def PyErr.detail (e : PyErr) : String :=
  if e.msg = "" then e.typeName ++ " (no detail)" else e.msg

/-- str(last_error) where last_error may still be None (only reachable when
the retry count is zero; Python renders None as the string None). -/
def lastErrorDetail : Option PyErr → String
  | none => "None"
  | some e => e.detail

/-- A delivered Ollama chat response: HTTP status and the two JSON body
fields ocr_page inspects. -/
structure OllamaResponse where
  status : Nat
  errorField : Option String
  messageContent : Option String
deriving DecidableEq

/-- One POST attempt as observed by ocr_page: the transport raised an
httpx.HTTPError, or a response arrived. -/
inductive AttemptOutcome where
  | transport (e : PyErr)
  | response (r : OllamaResponse)
deriving DecidableEq

/-- The message of the HTTPStatusError raised by raise_for_status.  The
wording comes from the httpx library and is abstracted; the claims rely
only on the final failure preserving this detail verbatim. -/
def statusErrMessage (code : Nat) : String :=
  "HTTP status " ++ toString code

/-- The rendering of the parsed body interpolated into the
unexpected-structure message (abstracted like statusErrMessage). -/
def responseRepr (r : OllamaResponse) : String :=
  "response with status " ++ toString r.status

/-- One iteration of the retry loop body (ocr.py lines 47-62): the POST may
raise a transport error; raise_for_status raises for any non-2xx status;
a body with an error field raises a RuntimeError; a missing
message.content raises a RuntimeError (KeyError rewrapped); otherwise the
content string is returned. -/
def classifyAttempt : AttemptOutcome → Except PyErr String
  | AttemptOutcome.transport e => Except.error e
  | AttemptOutcome.response r =>
      if r.status < 200 ∨ 300 ≤ r.status then
        Except.error { typeName := "HTTPStatusError"
                       msg := statusErrMessage r.status }
      else
        match r.errorField with
        | some em =>
            Except.error { typeName := "RuntimeError"
                           msg := "Ollama returned error: " ++ em }
        | none =>
            match r.messageContent with
            | some t => Except.ok t
            | none =>
                Except.error { typeName := "RuntimeError"
                               msg := "Unexpected Ollama response structure: "
                                 ++ responseRepr r }

/-- The retry loop of ocr_page: i is the 0-based index of the next attempt,
remaining the attempts left.  Returns the result together with the backoff
waits performed (in seconds, in order); the sleep of 2^attempt seconds
happens after every failed attempt, including the last one. -/
def ocrLoop (attempts : Nat → AttemptOutcome) (totalRetries : Nat) :
    Nat → Nat → Option PyErr → Except String String × List Nat
  | _, 0, lastError =>
      (Except.error ("OCR failed after " ++ toString totalRetries ++
        " attempts: " ++ lastErrorDetail lastError), [])
  | i, remaining + 1, _ =>
      match classifyAttempt (attempts i) with
      | Except.ok text => (Except.ok text, [])
      | Except.error e =>
          let rest := ocrLoop attempts totalRetries (i + 1) remaining (some e)
          (rest.1, 2 ^ i :: rest.2)

/-- ocr_page (ocr.py lines 16-81): up to retries attempts with exponential
backoff; a successful attempt returns message.content; once every attempt
has failed, a RuntimeError preserving the last error detail is raised. -/
def ocr_page (attempts : Nat → AttemptOutcome) (retries : Nat) :
    Except String String × List Nat :=
  ocrLoop attempts retries 0 retries none

theorem ocrLoop_agrees (a a2 : Nat → AttemptOutcome) (r : Nat) :
    ∀ (rem i : Nat) (last : Option PyErr),
      (∀ j, i ≤ j → j < i + rem → a2 j = a j) →
      ocrLoop a2 r i rem last = ocrLoop a r i rem last := by
  intro rem
  induction rem with
  | zero => intro i last _; rfl
  | succ rem2 ih =>
      intro i last hag
      have h0 : a2 i = a i := hag i (Nat.le_refl i) (by omega)
      simp only [ocrLoop, h0]
      cases hc : classifyAttempt (a i) with
      | ok text => rfl
      | error e =>
          dsimp only
          rw [ih (i + 1) (some e) (fun j h1 h2 => hag j (by omega) (by omega))]

theorem ocrLoop_waits_le (a : Nat → AttemptOutcome) (r : Nat) :
    ∀ (rem i : Nat) (last : Option PyErr),
      (ocrLoop a r i rem last).2.length ≤ rem := by
  intro rem
  induction rem with
  | zero => intro i last; exact Nat.le_refl 0
  | succ rem2 ih =>
      intro i last
      show (match classifyAttempt (a i) with
        | Except.ok text => (Except.ok text, [])
        | Except.error e =>
            let rest := ocrLoop a r (i + 1) rem2 (some e)
            (rest.1, 2 ^ i :: rest.2)).2.length ≤ rem2 + 1
      cases classifyAttempt (a i) with
      | ok text => exact Nat.zero_le _
      | error e =>
          have := ih (i + 1) (some e)
          simpa using Nat.succ_le_succ this

theorem waits_cons (i k : Nat) :
    (2 ^ i) :: (List.range k).map (fun j => 2 ^ (i + 1 + j)) =
      (List.range (k + 1)).map (fun j => 2 ^ (i + j)) := by
  rw [List.range_succ_eq_map, List.map_cons, List.map_map, Nat.add_zero]
  refine congrArg₂ List.cons rfl ?_
  apply List.map_congr_left
  intro j _
  simp only [Function.comp]
  congr 1
  omega

theorem ocrLoop_success (a : Nat → AttemptOutcome) (r : Nat) :
    ∀ (k rem i : Nat) (last : Option PyErr) (t : String),
      k < rem →
      (∀ j, j < k → ∃ e, classifyAttempt (a (i + j)) = Except.error e) →
      classifyAttempt (a (i + k)) = Except.ok t →
      ocrLoop a r i rem last =
        (Except.ok t, (List.range k).map (fun j => 2 ^ (i + j))) := by
  intro k
  induction k with
  | zero =>
      intro rem i last t hk _ hok
      cases rem with
      | zero => omega
      | succ rem2 =>
          simp only [ocrLoop]
          have hok2 : classifyAttempt (a i) = Except.ok t := hok
          rw [hok2]
          simp
  | succ k2 ih =>
      intro rem i last t hk hfail hok
      cases rem with
      | zero => omega
      | succ rem2 =>
          simp only [ocrLoop]
          rcases hfail 0 (by omega) with ⟨e0, he0⟩
          have he02 : classifyAttempt (a i) = Except.error e0 := he0
          rw [he02]
          dsimp only
          rw [ih rem2 (i + 1) (some e0) t (by omega)
            (fun j hj => by
              rcases hfail (j + 1) (by omega) with ⟨e2, he2⟩
              refine ⟨e2, ?_⟩
              rw [show i + 1 + j = i + (j + 1) by omega]
              exact he2)
            (by
              rw [show i + 1 + k2 = i + (k2 + 1) by omega]
              exact hok)]
          rw [waits_cons]

theorem ocrLoop_all_fail (a : Nat → AttemptOutcome) (r : Nat)
    (e : Nat → PyErr) :
    ∀ (rem i : Nat) (last : Option PyErr),
      (∀ j, j < rem → classifyAttempt (a (i + j)) = Except.error (e (i + j))) →
      ocrLoop a r i rem last =
        (Except.error ("OCR failed after " ++ toString r ++ " attempts: " ++
          lastErrorDetail (if rem = 0 then last else some (e (i + rem - 1)))),
         (List.range rem).map (fun j => 2 ^ (i + j))) := by
  intro rem
  induction rem with
  | zero =>
      intro i last _
      simp [ocrLoop]
  | succ rem2 ih =>
      intro i last hfail
      simp only [ocrLoop]
      have he0 : classifyAttempt (a i) = Except.error (e i) := by
        have h := hfail 0 (by omega)
        simpa using h
      rw [he0]
      dsimp only
      rw [ih (i + 1) (some (e i)) (fun j hj => by
        have h := hfail (j + 1) (by omega)
        rw [show i + 1 + j = i + (j + 1) by omega]
        exact h)]
      rw [waits_cons]
      cases rem2 with
      | zero => simp
      | succ r3 =>
          rw [if_neg (by omega), if_neg (by omega)]
          have harith : i + 1 + (r3 + 1) - 1 = i + (r3 + 1 + 1) - 1 := by omega
          rw [harith]

/-- Claim C8: the OCR client makes at most R attempts (its outcome depends
only on the first R attempt outcomes, and at most R backoff waits are
performed); a 2xx response carrying message.content (and no error field)
succeeds with that string; the k-th (0-based) failed attempt is followed by
a wait of 2^k seconds — i.e. 2^(attempt-1) for 1-based attempt numbers —
before the next attempt; after k failed attempts a success returns the
content with exactly those k waits; and when all R attempts fail the raised
error message preserves the last error detail. -/
theorem c8_ocr_retry (a : Nat → AttemptOutcome) (retries : Nat) :
    ((ocr_page a retries).2.length ≤ retries) ∧
    (∀ a2 : Nat → AttemptOutcome, (∀ i, i < retries → a2 i = a i) →
      ocr_page a2 retries = ocr_page a retries) ∧
    (∀ r : OllamaResponse, 200 ≤ r.status → r.status < 300 →
      r.errorField = none → ∀ t, r.messageContent = some t →
      classifyAttempt (AttemptOutcome.response r) = Except.ok t) ∧
    (∀ k t, k < retries →
      (∀ j, j < k → ∃ e, classifyAttempt (a j) = Except.error e) →
      classifyAttempt (a k) = Except.ok t →
      ocr_page a retries =
        (Except.ok t, (List.range k).map (fun j => 2 ^ j))) ∧
    (∀ e : Nat → PyErr, 0 < retries →
      (∀ j, j < retries → classifyAttempt (a j) = Except.error (e j)) →
      ocr_page a retries =
        (Except.error ("OCR failed after " ++ toString retries ++
          " attempts: " ++ (e (retries - 1)).detail),
         (List.range retries).map (fun j => 2 ^ j))) := by
  refine ⟨?_, ?_, ?_, ?_, ?_⟩
  · exact ocrLoop_waits_le a retries retries 0 none
  · intro a2 hag
    exact ocrLoop_agrees a a2 retries retries 0 none
      (fun j h1 h2 => hag j (by omega))
  · intro r h1 h2 h3 t h4
    dsimp only [classifyAttempt]
    rw [if_neg (by omega), h3, h4]
  · intro k t hk hfail hok
    have h := ocrLoop_success a retries k retries 0 none t hk
      (fun j hj => by simpa using hfail j hj)
      (by simpa using hok)
    rw [ocr_page, h]
    refine congrArg _ ?_
    apply List.map_congr_left
    intro j _
    rw [Nat.zero_add]
  · intro e hpos hfail
    have h := ocrLoop_all_fail a retries e retries 0 none
      (fun j hj => by simpa using hfail j hj)
    rw [ocr_page, h, if_neg (by omega)]
    have h2 : lastErrorDetail (some (e (0 + retries - 1))) = (e (retries - 1)).detail := by
      rw [Nat.zero_add]
      rfl
    rw [h2]
    refine congrArg _ ?_
    apply List.map_congr_left
    intro j _
    rw [Nat.zero_add]

/-- The attempt sequence for the claim C8 witness: attempt 0 gets an HTTP
500, every later attempt gets a 2xx with content. -/
def c8Attempts : Nat → AttemptOutcome := fun i =>
  if i = 0 then
    AttemptOutcome.response { status := 500, errorField := none
                              messageContent := none }
  else
    AttemptOutcome.response { status := 200, errorField := none
                              messageContent := some "page text" }

/-- Witness for claim C8 with the default retry count 3: a failure followed
by a success yields the content after a single 1-second wait, and three
transport failures yield the error message preserving the last detail after
waits of 1, 2 and 4 seconds. -/
theorem c8_ocr_retry_witness :
    ocr_page c8Attempts ocrRetries = (Except.ok "page text", [1]) ∧
    ocr_page (fun _ => AttemptOutcome.transport
        { typeName := "ConnectError", msg := "boom" }) ocrRetries =
      (Except.error "OCR failed after 3 attempts: boom", [1, 2, 4]) := by
  constructor
  · have h := (c8_ocr_retry c8Attempts ocrRetries).2.2.2.1 1 "page text"
      (by decide)
      (fun j hj => by
        have hj0 : j = 0 := by omega
        subst hj0
        exact ⟨{ typeName := "HTTPStatusError", msg := statusErrMessage 500 },
          rfl⟩)
      rfl
    rw [h]
    rfl
  · have h := (c8_ocr_retry (fun _ => AttemptOutcome.transport
        { typeName := "ConnectError", msg := "boom" }) ocrRetries).2.2.2.2
      (fun _ => { typeName := "ConnectError", msg := "boom" })
      (by decide)
      (fun j _ => rfl)
    rw [h]
    rfl
